import Mathlib

/-!
Verification development for the SchemaMap transformation engine of the
jsontools repository.  The Python sources under
`src/jsontools/transformation` and `src/jsonchamp/transformation` are
shallowly embedded: JSON-like records become the inductive `Value`, the
path engine, evaluator, transformer, code-generator semantics, function
registry, lexer and parser are translated function by function, and the
testable properties of the specification are settled as theorems.

Modelling conventions, used throughout:
* Python `None` is `Value.null`; Python dicts are insertion-ordered
  association lists with string keys (the JSON data model of the tool);
  Python floats are modelled as rationals, which is exact for every
  computation exercised below (no rounding-sensitive operation occurs).
* Python exceptions are modelled with `Except PyErr`; the error kind is
  tracked because the generated code catches only
  `(KeyError, TypeError, IndexError)`.
* Dict assignment with an `int` key falls outside the string-keyed JSON
  value model and is mapped to `PyErr.other`; no result below depends on
  such a write.
-/

inductive Value where
  | null : Value
  | bool (b : Bool) : Value
  | int (n : Int) : Value
  | float (q : Rat) : Value
  | str (s : String) : Value
  | arr (xs : List Value) : Value
  | obj (kvs : List (String × Value)) : Value
deriving Repr

inductive PyErr where
  | keyError | typeError | indexError | valueError
  | attributeError | zeroDivisionError | recursionError
  | lexerError | parserError | transformError
  | externalFunctionError | registryError | other
deriving Repr, DecidableEq

abbrev PyM (α : Type) := Except PyErr α

/-- First binding of a key in a Python dict (keys are unique, so first
match is the dict lookup). -/
def objGet : List (String × Value) → String → Option Value
  | [], _ => none
  | (k, v) :: rest, key => if k = key then some v else objGet rest key

/-- Python dict assignment: update in place preserving position, append a
new key at the end. -/
def objSet : List (String × Value) → String → Value → List (String × Value)
  | [], key, v => [(key, v)]
  | (k, w) :: rest, key, v =>
      if k = key then (k, v) :: rest else (k, w) :: objSet rest key v

/-- Numeric value shared by Python `bool`, `int` and `float` (`True == 1`,
`1 == 1.0`). -/
def numQ : Value → Option Rat
  | .bool b => some (if b then 1 else 0)
  | .int n => some (n : Rat)
  | .float q => some q
  | _ => none

mutual
/-- Python `==` on the value model: numeric kinds compare by value,
strings by content, lists element-wise, dicts as unordered mappings. -/
def pyEq (a b : Value) : Bool :=
  match numQ a, numQ b with
  | some x, some y => x == y
  | _, _ =>
    match a, b with
    | .null, .null => true
    | .str s, .str t => s == t
    | .arr xs, .arr ys => pyEqList xs ys
    | .obj xs, .obj ys => xs.length == ys.length && pyEqFields xs ys
    | _, _ => false

def pyEqList : List Value → List Value → Bool
  | [], [] => true
  | x :: xs, y :: ys => pyEq x y && pyEqList xs ys
  | _, _ => false

def pyEqFields : List (String × Value) → List (String × Value) → Bool
  | [], _ => true
  | (k, v) :: rest, ys =>
      (match objGet ys k with
       | some w => pyEq v w
       | none => false) && pyEqFields rest ys
end

mutual
/-- Python `<`: numbers by value, strings lexicographically, lists
lexicographically; every other combination raises `TypeError`. -/
def pyLt (a b : Value) : PyM Bool :=
  match numQ a, numQ b with
  | some x, some y => .ok (decide (x < y))
  | _, _ =>
    match a, b with
    | .str s, .str t => .ok (decide (s < t))
    | .arr xs, .arr ys => pyLtList xs ys
    | _, _ => .error .typeError

def pyLtList : List Value → List Value → PyM Bool
  | [], [] => .ok false
  | [], _ :: _ => .ok true
  | _ :: _, [] => .ok false
  | x :: xs, y :: ys =>
      if pyEq x y then pyLtList xs ys else pyLt x y
end

/-- Python `>` via `<` with the arguments swapped (valid for the numeric,
string and list orders used here). -/
def pyGt (a b : Value) : PyM Bool := pyLt b a

/-- Python `>=` as the negation of `<` (valid for the total orders used
here). -/
def pyGe (a b : Value) : PyM Bool := (pyLt a b).map (fun r => !r)

/-- Python `<=` as the negation of `>`. -/
def pyLe (a b : Value) : PyM Bool := (pyGt a b).map (fun r => !r)

/-- Python truthiness. -/
def pyTruthy : Value → Bool
  | .null => false
  | .bool b => b
  | .int n => n != 0
  | .float q => q != 0
  | .str s => s ≠ ""
  | .arr xs => !xs.isEmpty
  | .obj kvs => !kvs.isEmpty

/-- Python `len`. -/
def pyLen : Value → PyM Nat
  | .arr xs => .ok xs.length
  | .obj kvs => .ok kvs.length
  | .str s => .ok s.length
  | _ => .error .typeError

/-- Smallest exponent `k ≤ 30` with `den ∣ 10 ^ k`, if any. -/
def decExp (den : Nat) : Option Nat :=
  (List.range 31).find? (fun k => (10 ^ k) % den = 0)

/-- Rendering of a rational float, matching Python `str(float)` on every
value with a finite decimal expansion (all floats manipulated by the
engine arise from decimal literals); other rationals get a num/den
stand-in that nothing below exercises. -/
def ratStr (q : Rat) : String :=
  if q.den = 1 then toString q.num ++ ".0"
  else
    match decExp q.den with
    | some k =>
      let scaled := (q.num.natAbs * 10 ^ k) / q.den
      let ip := scaled / 10 ^ k
      let fp := scaled % 10 ^ k
      let fpS := toString fp
      let fpS := String.mk (List.replicate (k - fpS.length) '0') ++ fpS
      (if q.num < 0 then "-" else "") ++ toString ip ++ "." ++ fpS
    | none => toString q.num ++ "/" ++ toString q.den

/-- Python `str()`.  Scalars are exact; container repr is a stand-in that
no result below depends on. -/
def pyStr : Value → String
  | .null => "None"
  | .bool b => if b then "True" else "False"
  | .int n => toString n
  | .float q => ratStr q
  | .str s => s
  | .arr _ => "<list>"
  | .obj _ => "<dict>"

/-- Python whitespace test for `strip` and friends. -/
def isWs (c : Char) : Bool := c = ' ' || c = '\t' || c = '\n' || c = '\r'

def chLStrip (cs : List Char) : List Char := cs.dropWhile isWs

def chStrip (cs : List Char) : List Char :=
  ((chLStrip cs).reverse.dropWhile isWs).reverse

/-- `str.strip()`. -/
def pyStrip (s : String) : String := String.mk (chStrip s.toList)

/-- Digits of a char list, as a natural number; `none` if empty or a
non-digit occurs. -/
def digitsVal : List Char → Option Nat
  | [] => none
  | cs =>
    if cs.all Char.isDigit then
      some (cs.foldl (fun acc c => acc * 10 + (c.toNat - '0'.toNat)) 0)
    else none

/-- Python `int(str)`: strip whitespace, optional sign, decimal digits. -/
def pyParseInt (s : String) : Option Int :=
  match chStrip s.toList with
  | '-' :: rest => (digitsVal rest).map (fun n => -(n : Int))
  | '+' :: rest => (digitsVal rest).map (fun n => (n : Int))
  | cs => (digitsVal cs).map (fun n => (n : Int))

/-- Python `float(str)` for plain decimal forms (`1`, `1.`, `.5`, `-1.5`);
exponent forms are not modelled (none occurs below). -/
def pyParseFloat (s : String) : Option Rat :=
  let core : List Char → Option Rat := fun cs =>
    match cs.span (fun c => c ≠ '.') with
    | (intPart, []) => (digitsVal intPart).map (fun n => (n : Rat))
    | (intPart, _ :: fracPart) =>
      let ip : Option Nat :=
        if intPart.isEmpty then some 0 else digitsVal intPart
      let fp : Option Nat :=
        if fracPart.isEmpty then some 0 else digitsVal fracPart
      if intPart.isEmpty && fracPart.isEmpty then none
      else
        match ip, fp with
        | some i, some f =>
            some ((i : Rat) + (f : Rat) / ((10 : Rat) ^ fracPart.length))
        | _, _ => none
  match chStrip s.toList with
  | '-' :: rest => (core rest).map (fun q => -q)
  | '+' :: rest => core rest
  | cs => core cs

/-- Python `float(value)`. -/
def pyFloat : Value → PyM Rat
  | .bool b => .ok (if b then 1 else 0)
  | .int n => .ok (n : Rat)
  | .float q => .ok q
  | .str s =>
      match pyParseFloat s with
      | some q => .ok q
      | none => .error .valueError
  | _ => .error .typeError

/-- Truncation toward zero, Python `int(float)`. -/
def ratTrunc (q : Rat) : Int := if q ≥ 0 then ⌊q⌋ else ⌈q⌉

/-- Python list indexing with end-relative negative indices. -/
def pyIdx (xs : List Value) (i : Int) : Option Value :=
  let n : Int := xs.length
  if 0 ≤ i && i < n then xs.get? i.toNat
  else if -n ≤ i && i < 0 then xs.get? (n + i).toNat
  else none

/-- Python list item assignment `xs[i] = v`; `none` on IndexError. -/
def pySetIdx (xs : List Value) (i : Int) (v : Value) : Option (List Value) :=
  let n : Int := xs.length
  if 0 ≤ i && i < n then some (xs.set i.toNat v)
  else if -n ≤ i && i < 0 then some (xs.set (n + i).toNat v)
  else none

/-- `while len(xs) <= i: xs.append(fill)`. -/
def padTo (xs : List Value) (i : Int) (fill : Value) : List Value :=
  if i < 0 then xs
  else xs ++ List.replicate (i.toNat + 1 - xs.length) fill

/-! ## Path engine (`ExpressionEvaluator._parse_path`, `get_value`,
`set_value`, `_get_array_values`, `_set_array_value`) -/

/-- A parsed path segment: `_parse_path` produces strings and ints; the
wildcard is the string `"*"` (`PSeg.fld "*"`). -/
inductive PSeg where
  | fld (s : String)
  | idx (i : Int)
deriving Repr, DecidableEq

/-- Scan to the first `]`, returning the content before it and the
remainder after it (Python `path.index("]")`). -/
def findRB : List Char → Option (List Char × List Char)
  | [] => none
  | c :: rest =>
    if c = ']' then some ([], rest)
    else (findRB rest).map (fun p => (c :: p.1, p.2))

def pushCur (cur : List Char) : List PSeg :=
  if cur.isEmpty then [] else [PSeg.fld (String.mk cur)]

/-- `_parse_path` scanner: split on dots, bracket groups become int
segments (or the string `"*"`, or a plain string on non-numeric
content); a missing `]` raises (ValueError from `path.index`).  Every
step consumes at least one character, so the fuel `length + 1`
supplied by `parsePath` is never exhausted. -/
def parsePathAux : Nat → List Char → List Char → List PSeg → PyM (List PSeg)
  | 0, _, _, _ => .error .recursionError
  | _ + 1, [], cur, acc => .ok (acc ++ pushCur cur)
  | fuel + 1, '.' :: rest, cur, acc => parsePathAux fuel rest [] (acc ++ pushCur cur)
  | fuel + 1, '[' :: rest, cur, acc =>
    (match findRB rest with
    | none => .error .valueError
    | some (content, rest2) =>
      let seg :=
        if content = ['*'] then PSeg.fld "*"
        else
          match pyParseInt (String.mk content) with
          | some n => PSeg.idx n
          | none => PSeg.fld (String.mk content)
      parsePathAux fuel rest2 [] (acc ++ pushCur cur ++ [seg]))
  | fuel + 1, c :: rest, cur, acc => parsePathAux fuel rest (cur ++ [c]) acc

def parsePath (s : String) : PyM (List PSeg) :=
  parsePathAux (s.length + 1) s.toList [] []

/-- The embedded-index pattern of `get_value`
(regex `^([^\[]+)\[(\d+)\]$`). -/
def embIdx (s : String) : Option (String × Nat) :=
  match s.toList.span (fun c => c ≠ '[') with
  | (base, '[' :: rest) =>
    (match rest.span Char.isDigit with
     | (ds, [']']) =>
       if base.isEmpty then none
       else
         match digitsVal ds with
         | some n => some (String.mk base, n)
         | none => none
     | _ => none)
  | _ => none

/-- The segment-walking loop of `get_value` (lines 159–196); total: every
failure resolves to `Null`. -/
def walkGet (cur : Value) : List PSeg → Value
  | [] => cur
  | seg :: rest =>
    match cur with
    | .null => .null
    | _ =>
      match seg with
      | .idx i =>
        match cur with
        | .arr xs =>
          match pyIdx xs i with
          | some x => walkGet x rest
          | none => .null
        | _ => .null
      | .fld s =>
        if s = "*" then
          match cur with
          | .arr xs => .arr xs
          | _ => .null
        else
          match embIdx s with
          | some bi =>
            match cur with
            | .obj kvs =>
              match objGet kvs bi.1 with
              | some (.arr xs) =>
                match pyIdx xs (bi.2 : Int) with
                | some x => walkGet x rest
                | none => .null
              | _ => .null
            | _ => .null
          | none =>
            match cur with
            | .obj kvs => walkGet ((objGet kvs s).getD .null) rest
            | _ => .null

/-- Python string indexing, yielding a one-character string. -/
def pyIdxStr (s : String) (i : Int) : Option String :=
  let cs := s.toList
  let n : Int := cs.length
  if 0 ≤ i && i < n then (cs.get? i.toNat).map (fun c => String.mk [c])
  else if -n ≤ i && i < 0 then
    (cs.get? (n + i).toNat).map (fun c => String.mk [c])
  else none

/-- Final-segment assignment of `set_value` (lines 251–257). -/
def setFinal (cur : Value) (seg : PSeg) (v : Value) : PyM Value :=
  match seg with
  | .idx i =>
    match cur with
    | .arr xs =>
      let xs := padTo xs i Value.null
      match pySetIdx xs i v with
      | some ys => .ok (.arr ys)
      | none => .error .indexError
    | .obj kvs =>
      if (kvs.length : Int) ≤ i then .error .attributeError
      else .error .other
    | .str s =>
      if (s.length : Int) ≤ i then .error .attributeError
      else .error .typeError
    | _ => .error .typeError
  | .fld s =>
    match cur with
    | .obj kvs => .ok (.obj (objSet kvs s v))
    | _ => .error .typeError

/-- The non-wildcard walk of `set_value` (lines 234–257), rebuilding the
mutated containers; exceptions follow the Python dynamic semantics. -/
def walkSet (cur : Value) : List PSeg → Value → PyM Value
  | [], _ => .error .indexError
  | [last], v => setFinal cur last v
  | seg :: next :: rest, v =>
    match seg with
    | .idx i =>
      match cur with
      | .arr xs =>
        let xs := padTo xs i (Value.obj [])
        match pyIdx xs i with
        | none => .error .indexError
        | some child0 =>
          let child := match child0 with | .null => Value.obj [] | c => c
          match walkSet child (next :: rest) v with
          | .error e => .error e
          | .ok child2 =>
            match pySetIdx xs i child2 with
            | some ys => .ok (.arr ys)
            | none => .error .indexError
      | .obj kvs =>
        if (kvs.length : Int) ≤ i then .error .attributeError
        else .error .keyError
      | .str s =>
        if (s.length : Int) ≤ i then .error .attributeError
        else
          match pyIdxStr s i with
          | none => .error .indexError
          | some ch =>
            match walkSet (Value.str ch) (next :: rest) v with
            | .ok _ => .error .other
            | .error e => .error e
      | _ => .error .typeError
    | .fld s =>
      match cur with
      | .obj kvs =>
        let needNew :=
          match objGet kvs s with
          | none => true
          | some .null => true
          | some _ => false
        let kvs1 :=
          if needNew then
            objSet kvs s
              (match next with | .idx _ => Value.arr [] | _ => Value.obj [])
          else kvs
        match objGet kvs1 s with
        | none => .error .other
        | some child =>
          match walkSet child (next :: rest) v with
          | .error e => .error e
          | .ok child2 => .ok (.obj (objSet kvs1 s child2))
      | _ => .error .typeError

/-- The walk over the segments before the wildcard in `_set_array_value`
(lines 269–274): missing keys are created as lists, then the
continuation receives the container found at the end. -/
def setArrWalk (cur : Value) : List PSeg → (Value → PyM Value) → PyM Value
  | [], k => k cur
  | seg :: rest, k =>
    match seg with
    | .fld s =>
      match cur with
      | .obj kvs =>
        let kvs1 :=
          match objGet kvs s with
          | none => objSet kvs s (Value.arr [])
          | some _ => kvs
        match objGet kvs1 s with
        | none => .error .other
        | some child =>
          match setArrWalk child rest k with
          | .error e => .error e
          | .ok child2 => .ok (.obj (objSet kvs1 s child2))
      | _ => .error .typeError
    | .idx i =>
      match cur with
      | .arr xs =>
        let member := xs.any (fun x => pyEq x (Value.int i))
        let xs1res : PyM (List Value) :=
          if member then .ok xs
          else
            match pySetIdx xs i (Value.arr []) with
            | some ys => .ok ys
            | none => .error .indexError
        match xs1res with
        | .error e => .error e
        | .ok xs1 =>
          match pyIdx xs1 i with
          | none => .error .indexError
          | some child =>
            match setArrWalk child rest k with
            | .error e => .error e
            | .ok child2 =>
              match pySetIdx xs1 i child2 with
              | some ys => .ok (.arr ys)
              | none => .error .other
      | .obj _ => .error .other
      | _ => .error .typeError

/-- Per-element suffix write of the list branch of `_set_array_value`
(lines 295–300): walk `after[:-1]` creating missing dicts, assign the
last segment. -/
def setInto (tgt : Value) : List PSeg → Value → PyM Value
  | [], _ => .error .other
  | [last], v =>
    match last with
    | .fld s =>
      match tgt with
      | .obj kvs => .ok (.obj (objSet kvs s v))
      | _ => .error .typeError
    | .idx _ =>
      match tgt with
      | .obj _ => .error .other
      | _ => .error .typeError
  | seg :: next :: rest, v =>
    match seg with
    | .fld s =>
      match tgt with
      | .obj kvs =>
        let kvs1 :=
          match objGet kvs s with
          | none => objSet kvs s (Value.obj [])
          | some _ => kvs
        match objGet kvs1 s with
        | none => .error .other
        | some child =>
          match setInto child (next :: rest) v with
          | .error e => .error e
          | .ok child2 => .ok (.obj (objSet kvs1 s child2))
      | _ => .error .typeError
    | .idx _ =>
      match tgt with
      | .obj _ => .error .other
      | _ => .error .typeError

/-- The fresh-item construction of the scalar branch of
`_set_array_value` (lines 305–312). -/
def buildNew : List PSeg → Value → PyM Value
  | [], _ => .error .other
  | [last], v =>
    match last with
    | .fld s => .ok (.obj (objSet [] s v))
    | .idx _ => .error .other
  | seg :: next :: rest, v =>
    match seg with
    | .fld s =>
      match buildNew (next :: rest) v with
      | .error e => .error e
      | .ok child => .ok (.obj [(s, child)])
    | .idx _ => .error .other

/-- `for i, val in enumerate(value)` of the list branch: write each
value into the corresponding (padded) target element. -/
def writeEach (after : List PSeg) : List Value → List Value → PyM (List Value)
  | xs, [] => .ok xs
  | [], _ :: _ => .error .other
  | x :: xs, v :: vs =>
    if after.isEmpty then
      match writeEach after xs vs with
      | .error e => .error e
      | .ok rest => .ok (v :: rest)
    else
      let x1 := match x with | .obj _ => x | _ => Value.obj []
      match setInto x1 after v with
      | .error e => .error e
      | .ok x2 =>
        match writeEach after xs vs with
        | .error e => .error e
        | .ok rest => .ok (x2 :: rest)

/-- The write step of `_set_array_value` once the array container is
reached (lines 276–314): broadcast a list value, append a scalar one;
a non-list container makes the whole call a silent no-op. -/
def setArrAt (after : List PSeg) (v : Value) (cur : Value) : PyM Value :=
  match cur with
  | .arr xs =>
    match v with
    | .arr vs =>
      let xs1 := xs ++ List.replicate (vs.length - xs.length) (Value.obj [])
      match writeEach after xs1 vs with
      | .error e => .error e
      | .ok ys => .ok (.arr ys)
    | _ =>
      if after.isEmpty then .ok (.arr (xs ++ [v]))
      else
        match buildNew after v with
        | .error e => .error e
        | .ok item => .ok (.arr (xs ++ [item]))
  | other => .ok other

/-- `_set_array_value` (lines 259–314). -/
def setArrayValue (segs : List PSeg) (v : Value) (data : Value) : PyM Value :=
  let star := PSeg.fld "*"
  let before := segs.takeWhile (fun s => s ≠ star)
  let after := (segs.dropWhile (fun s => s ≠ star)).drop 1
  setArrWalk data before (setArrAt after v)

/-- `set_value` (lines 225–257): parse, dispatch on a wildcard segment. -/
def setValueStr (path : String) (v : Value) (data : Value) : PyM Value := do
  let segs ← parsePath path
  if segs.contains (PSeg.fld "*") then setArrayValue segs v data
  else walkSet data segs v

/-- Textual `"[*]" in path` check of `get_value`. -/
def hasStarBr : List Char → Bool
  | '[' :: '*' :: ']' :: _ => true
  | _ :: rest => hasStarBr rest
  | [] => false

/-- Does the char list begin with the three characters of `[*]`? -/
def startsStarBr (cs : List Char) : Bool := cs.take 3 = ['[', '*', ']']

/-- `path.split("[*]", 1)`. -/
def splitStarBr : List Char → Option (List Char × List Char)
  | [] => none
  | c :: rest =>
    if startsStarBr (c :: rest) then some ([], rest.drop 2)
    else (splitStarBr rest).map (fun p => (c :: p.1, p.2))

/-- Fuelled core of `get_value` (lines 143–196) together with
`_get_array_values` (lines 198–223); the mutual recursion through the
wildcard suffix consumes one unit of fuel per nesting level. -/
def getVF : Nat → String → Value → PyM Value
  | 0, _, _ => .error .recursionError
  | fuel + 1, path, data =>
    if path = "" then .ok data
    else
      let pcs0 := path.toList
      let pcs := if pcs0.head? = some '.' then pcs0.drop 1 else pcs0
      if hasStarBr pcs then
        match splitStarBr pcs with
        | none => .error .other
        | some (pre, post) =>
          let arrayPath := String.mk pre
          let suffix := String.mk (post.dropWhile (fun c => c = '.'))
          match getVF fuel arrayPath data with
          | .error e => .error e
          | .ok a =>
            match a with
            | .arr items =>
              if suffix = "" then .ok (.arr items)
              else
                match items.mapM (fun it =>
                    match it with
                    | .obj _ => getVF fuel suffix it
                    | _ => .ok it) with
                | .error e => .error e
                | .ok res => .ok (.arr res)
            | _ => .ok (.arr [])
      else
        match parsePath (String.mk pcs) with
        | .error e => .error e
        | .ok segs => .ok (walkGet data segs)

/-- `get_value`: the fuel `path.length + 1` dominates the wildcard
nesting depth (each nesting removes at least the three characters
`[*]`). -/
def getValueStr (path : String) (data : Value) : PyM Value :=
  getVF (path.length + 1) path data

/-! ## Builtin transform library (`BuiltinFunctions`, functions.py)

The table below embeds the pure string/numeric/boolean/array/conditional
builtins.  The date, regex, json-text, hashing and templating entries
(`parse_date`, `format_date`, `to_iso8601`, `to_timestamp`, `add_days`,
`add_months`, `add_years`, `regex_replace`, `json_parse`,
`json_stringify`, `hash`, `template`, `validate`, `matches`, `sort`,
`distinct`, `pick`, `omit`, `lookup`) are not modelled: they are absent
from the table, and no theorem below exercises them.  (The table entry
`lookup` is in any case unreachable through `apply_transform`, which
intercepts the name first.) -/

/-- Python `str.lower()` over the character list (ASCII case map). -/
def strLower (s : String) : String := String.mk (s.toList.map Char.toLower)

/-- Python `str.upper()` over the character list (ASCII case map). -/
def strUpper (s : String) : String := String.mk (s.toList.map Char.toUpper)

/-- `str.startswith` as a prefix test on the character list. -/
def strStartsWith (s pre : String) : Bool := pre.toList.isPrefixOf s.toList

/-- `str.endswith` as a suffix test on the character list. -/
def strEndsWith (s suf : String) : Bool := suf.toList.isSuffixOf s.toList

/-- Scanner of `str.replace` for a non-empty pattern. -/
def replCh (pat rep : List Char) : Nat → List Char → List Char
  | 0, cs => cs
  | _ + 1, [] => []
  | fuel + 1, c :: cs =>
    if pat.isPrefixOf (c :: cs) then
      rep ++ replCh pat rep fuel (List.drop pat.length (c :: cs))
    else c :: replCh pat rep fuel cs

/-- Python `str.replace(pat, rep)`; an empty pattern interleaves `rep`
around every character. -/
def strReplace (s pat rep : String) : String :=
  if pat = "" then
    String.mk (rep.toList ++ s.toList.foldr (fun c acc => c :: (rep.toList ++ acc)) [])
  else String.mk (replCh pat.toList rep.toList (s.length + 1) s.toList)

/-- Scanner of `str.split(d)` for a non-empty delimiter. -/
def splitChAux (d : List Char) : Nat → List Char → List Char → List String
  | 0, cur, _ => [String.mk cur]
  | _ + 1, cur, [] => [String.mk cur]
  | fuel + 1, cur, c :: cs =>
    if d.isPrefixOf (c :: cs) then
      String.mk cur :: splitChAux d fuel [] (List.drop d.length (c :: cs))
    else splitChAux d fuel (cur ++ [c]) cs

/-- Python `str.split(d)` for a non-empty delimiter `d`. -/
def strSplitOn (s d : String) : List String :=
  splitChAux d.toList (s.length + 1) [] s.toList

/-- Python slice `s[a:b]` with the usual clamping and negative-index
normalisation. -/
def pySlice (s : String) (a : Int) (b : Option Int) : String :=
  let cs := s.toList
  let n : Int := cs.length
  let norm : Int → Int := fun i =>
    let i := if i < 0 then n + i else i
    if i < 0 then 0 else if i > n then n else i
  let lo := norm a
  let hi := norm (b.getD n)
  String.mk ((cs.take hi.toNat).drop lo.toNat)

/-- Python `str.title()`: a letter after a non-letter is uppercased,
other letters lowercased. -/
def pyTitle (s : String) : String :=
  let step := fun (acc : List Char × Bool) (c : Char) =>
    if c.isAlpha then
      (acc.1 ++ [if acc.2 then c.toLower else c.toUpper], true)
    else (acc.1 ++ [c], false)
  String.mk (s.toList.foldl step ([], false)).1

/-- Python `str.capitalize()`: first char uppercased, the rest
lowercased. -/
def pyCapitalize (s : String) : String :=
  match s.toList with
  | [] => ""
  | c :: rest => String.mk (c.toUpper :: rest.map Char.toLower)

/-- Python `str.split()` with no argument: whitespace runs separate the
tokens, empties dropped. -/
def pyWsSplit (s : String) : List String :=
  ((s.toList.splitOnP isWs).filter (fun t => !t.isEmpty)).map String.mk

/-- Banker's rounding of a rational to an integer (Python `round`). -/
def roundHalfEven (m : Rat) : Int :=
  let f := ⌊m⌋
  let frac := m - (f : Rat)
  if frac < 1 / 2 then f
  else if frac > 1 / 2 then f + 1
  else if f % 2 = 0 then f else f + 1

/-- Python `round(x, nd)` on the rational float model. -/
def pyRound (q : Rat) (nd : Int) : Rat :=
  let scale : Rat :=
    if nd ≥ 0 then ((10 : Rat) ^ nd.toNat) else 1 / ((10 : Rat) ^ (-nd).toNat)
  (roundHalfEven (q * scale) : Rat) / scale

namespace Bf

def trim : Value → Value
  | .null => .str ""
  | v => .str (pyStrip (pyStr v))

def lowercase : Value → Value
  | .null => .str ""
  | v => .str (strLower (pyStr v))

def uppercase : Value → Value
  | .null => .str ""
  | v => .str (strUpper (pyStr v))

def titlecase : Value → Value
  | .null => .str ""
  | v => .str (pyTitle (pyStr v))

def capitalize : Value → Value
  | .null => .str ""
  | v => .str (pyCapitalize (pyStr v))

def replaceTr (v : Value) (old new : Value) : PyM Value :=
  match v with
  | .null => .ok (.str "")
  | _ =>
    match old, new with
    | .str o, .str n => .ok (.str (strReplace (pyStr v) o n))
    | _, _ => .error .typeError

def substring (v : Value) (start : Value) (stop : Option Value) : PyM Value :=
  match v with
  | .null => .ok (.str "")
  | _ =>
    match start, stop with
    | .int a, none => .ok (.str (pySlice (pyStr v) a none))
    | .int a, some (.int b) => .ok (.str (pySlice (pyStr v) a (some b)))
    | _, _ => .error .typeError

def prefixTr (v : Value) (pre : Value) : Value :=
  match v with
  | .null => .str (pyStr pre)
  | _ => .str (pyStr pre ++ pyStr v)

def suffixTr (v : Value) (suf : Value) : Value :=
  match v with
  | .null => .str (pyStr suf)
  | _ => .str (pyStr v ++ pyStr suf)

def max_length (v : Value) (len : Value) : PyM Value :=
  let s := match v with | .null => "" | _ => pyStr v
  match len with
  | .int n => .ok (.str (pySlice s 0 (some n)))
  | _ => .error .typeError

def padStr (s : String) (width : Int) (c : Char) (left : Bool) : String :=
  let extra := (width - (s.length : Int)).toNat
  if left then String.mk (List.replicate extra c) ++ s
  else s ++ String.mk (List.replicate extra c)

def min_length (v : Value) (len : Value) (pad : Value) : PyM Value :=
  let s := match v with | .null => "" | _ => pyStr v
  match len, pad with
  | .int n, .str p =>
    match p.toList with
    | [c] => .ok (.str (padStr s n c false))
    | _ => .error .typeError
  | _, _ => .error .typeError

def splitTr (v : Value) (delim : Value) : PyM Value :=
  match v with
  | .null => .ok (.arr [])
  | _ =>
    match delim with
    | .str d =>
      if d = "" then .error .valueError
      else .ok (.arr ((strSplitOn (pyStr v) d).map Value.str))
    | _ => .error .typeError

def joinTr (v : Value) (delim : Value) : PyM Value :=
  match v with
  | .null => .ok (.str "")
  | .arr xs =>
    match delim with
    | .str d => .ok (.str (String.intercalate d (xs.map pyStr)))
    | _ => .error .typeError
  | _ => .ok (.str (pyStr v))

def pad_left (v : Value) (width pad : Value) : PyM Value :=
  match v with
  | .null => .ok (.str "")
  | _ =>
    match width, pad with
    | .int n, .str p =>
      match p.toList with
      | [c] => .ok (.str (padStr (pyStr v) n c true))
      | _ => .error .typeError
    | _, _ => .error .typeError

def pad_right (v : Value) (width pad : Value) : PyM Value :=
  match v with
  | .null => .ok (.str "")
  | _ =>
    match width, pad with
    | .int n, .str p =>
      match p.toList with
      | [c] => .ok (.str (padStr (pyStr v) n c false))
      | _ => .error .typeError
    | _, _ => .error .typeError

def collapse_spaces : Value → Value
  | .null => .str ""
  | v => .str (String.intercalate " " (pyWsSplit (pyStr v)))

def sentence_case : Value → Value
  | .null => .str ""
  | v =>
    let s := (strLower (pyStr v))
    match s.toList with
    | [] => .str ""
    | c :: rest => .str (String.mk (c.toUpper :: rest))

def to_int : Value → Value
  | .null => .int 0
  | v =>
    match pyParseFloat (pyStr v) with
    | some q => .int (ratTrunc q)
    | none => .int 0

def to_float : Value → Value
  | .null => .float 0
  | v =>
    match pyParseFloat (pyStr v) with
    | some q => .float q
    | none => .float 0

def asFloat (v : Value) : Rat :=
  match to_float v with
  | .float q => q
  | _ => 0

def to_decimal (v : Value) (precision : Value) : PyM Value :=
  match precision with
  | .int p => .ok (.float (pyRound (asFloat v) p))
  | _ => .error .typeError

def round_num (v : Value) (decimals : Value) : PyM Value :=
  match decimals with
  | .int d => .ok (.float (pyRound (asFloat v) d))
  | _ => .error .typeError

def floorTr (v : Value) : Value := .int ⌊asFloat v⌋

def ceilTr (v : Value) : Value := .int ⌈asFloat v⌉

def abs_val (v : Value) : Value := .float |asFloat v|

def multiply (v : Value) (factor : Value) : PyM Value :=
  match numQ factor with
  | some f => .ok (.float (asFloat v * f))
  | none => .error .typeError

def divide (v : Value) (divisor : Value) : PyM Value :=
  if pyEq divisor (.int 0) then .ok (.float 0)
  else
    match numQ divisor with
    | some d => .ok (.float (asFloat v / d))
    | none => .error .typeError

def addTr (v : Value) (amount : Value) : PyM Value :=
  match numQ amount with
  | some a => .ok (.float (asFloat v + a))
  | none => .error .typeError

def subtract (v : Value) (amount : Value) : PyM Value :=
  match numQ amount with
  | some a => .ok (.float (asFloat v - a))
  | none => .error .typeError

def min_val (v : Value) (minimum : Value) : PyM Value :=
  match numQ minimum with
  | some m => .ok (.float (max (asFloat v) m))
  | none => .error .typeError

def max_val (v : Value) (maximum : Value) : PyM Value :=
  match numQ maximum with
  | some m => .ok (.float (min (asFloat v) m))
  | none => .error .typeError

def clamp (v : Value) (lo hi : Value) : PyM Value :=
  match numQ lo, numQ hi with
  | some a, some b => .ok (.float (max a (min (asFloat v) b)))
  | _, _ => .error .typeError

/-- `BuiltinFunctions.to_bool` (functions.py lines 291–299): `None` is
false, a bool passes through, a string is tested lowercased against
`true|yes|y|1|on`, anything else is Python truthiness. -/
def to_bool : Value → Bool
  | .null => false
  | .bool b => b
  | .str s => strLower s ∈ ["true", "yes", "y", "1", "on"]
  | v => pyTruthy v

def negate (v : Value) : Value := .bool (!to_bool v)

def first : Value → Value
  | .arr (x :: _) => x
  | _ => .null

def lastTr : Value → Value
  | .arr xs => (xs.getLast?).getD .null
  | _ => .null

def atIdx (v : Value) (i : Value) : PyM Value :=
  match v, i with
  | .arr xs, .int n => .ok ((pyIdx xs n).getD .null)
  | _, .int _ => .ok .null
  | _, _ => .error .typeError

def flattenTr : Value → List Value
  | .arr xs => flattenList xs
  | .null => []
  | v => [v]
where
  flattenList : List Value → List Value
  | [] => []
  | x :: rest =>
    (match x with
     | .arr ys => flattenList ys
     | y => [y]) ++ flattenList rest

def reverseTr : Value → Value
  | .arr xs => .arr xs.reverse
  | .null => .arr []
  | v => .arr [v]

def takeTr (v : Value) (n : Value) : PyM Value :=
  match n with
  | .int k =>
    match v with
    | .arr xs =>
      .ok (.arr (if k < 0 then xs.take ((xs.length : Int) + k).toNat else xs.take k.toNat))
    | .null => .ok (.arr [])
    | w => .ok (.arr [w])
  | _ => .error .typeError

def skipTr (v : Value) (n : Value) : PyM Value :=
  match n with
  | .int k =>
    match v with
    | .arr xs =>
      .ok (.arr (if k < 0 then xs.drop ((xs.length : Int) + k).toNat else xs.drop k.toNat))
    | _ => .ok (.arr [])
  | _ => .error .typeError

def count : Value → Value
  | .arr xs => .int xs.length
  | .null => .int 0
  | _ => .int 1

def sum_arr : Value → Value
  | .arr xs => .float (xs.foldl (fun acc x => acc + asFloat x) 0)
  | v => to_float v

def avg : Value → Value
  | .arr [] => .float 0
  | .arr xs => .float ((xs.foldl (fun acc x => acc + asFloat x) 0) / (xs.length : Rat))
  | _ => .float 0

def wrap : Value → Value
  | .arr xs => .arr xs
  | .null => .arr []
  | v => .arr [v]

def unwrap : Value → Value
  | .arr [x] => x
  | v => v

def defaultTr (v : Value) (d : Value) : Value :=
  match v with
  | .null => d
  | _ => v

def if_empty (v : Value) (d : Value) : Value :=
  match v with
  | .null => d
  | .str s => if pyStrip s = "" then d else v
  | .arr [] => d
  | .obj [] => d
  | _ => v

def if_null (v : Value) (d : Value) : Value :=
  match v with
  | .null => d
  | _ => v

def required (v : Value) : PyM Value :=
  match v with
  | .null => .error .valueError
  | _ => .ok v

def optionalTr (v : Value) : Value := v

def whenTr (v : Value) (m r : Value) : Value := if pyEq v m then r else v

def else_val (v : Value) (d : Value) : Value :=
  match v with
  | .null => d
  | _ => v

def in_list (v : Value) (items : List Value) : Value :=
  .bool (items.any (fun x => pyEq v x))

def not_in_list (v : Value) (items : List Value) : Value :=
  .bool (!items.any (fun x => pyEq v x))

def constantTr (v : Value) : Value := v

def raw (v : Value) : Value := v

def mask (v : Value) (visible : Value) : PyM Value :=
  match v with
  | .null => .ok (.str "")
  | _ =>
    match visible with
    | .int k =>
      let s := pyStr v
      if (s.length : Int) ≤ k then
        .ok (.str (String.mk (List.replicate s.length '*')))
      else
        .ok (.str (String.mk (List.replicate (s.length - k.toNat) '*')
                   ++ pySlice s (-(k)) none))
    | _ => .error .typeError

def to_string : Value → Value
  | .null => .str ""
  | v => .str (pyStr v)

end Bf

/-- Arity check helper: a builtin taking no extra argument raises
`TypeError` when called with one (`func(value, *args)`). -/
def arity0 (f : Value → Value) : Value → List Value → PyM Value :=
  fun v args => match args with | [] => .ok (f v) | _ => .error .typeError

def arity0M (f : Value → PyM Value) : Value → List Value → PyM Value :=
  fun v args => match args with | [] => f v | _ => .error .typeError

/-- `BuiltinFunctions.get_function` for the modelled subset; names not in
the table resolve to `none` exactly as unknown names do in the source. -/
def getFunction : String → Option (Value → List Value → PyM Value)
  | "trim" => some (arity0 Bf.trim)
  | "lowercase" => some (arity0 Bf.lowercase)
  | "uppercase" => some (arity0 Bf.uppercase)
  | "titlecase" => some (arity0 Bf.titlecase)
  | "capitalize" => some (arity0 Bf.capitalize)
  | "replace" => some (fun v args =>
      match args with
      | [o, n] => Bf.replaceTr v o n
      | _ => .error .typeError)
  | "substring" => some (fun v args =>
      match args with
      | [a] => Bf.substring v a none
      | [a, b] => Bf.substring v a (some b)
      | _ => .error .typeError)
  | "prefix" => some (fun v args =>
      match args with
      | [p] => .ok (Bf.prefixTr v p)
      | _ => .error .typeError)
  | "suffix" => some (fun v args =>
      match args with
      | [s] => .ok (Bf.suffixTr v s)
      | _ => .error .typeError)
  | "max_length" => some (fun v args =>
      match args with
      | [n] => Bf.max_length v n
      | _ => .error .typeError)
  | "min_length" => some (fun v args =>
      match args with
      | [n] => Bf.min_length v n (.str " ")
      | [n, p] => Bf.min_length v n p
      | _ => .error .typeError)
  | "split" => some (fun v args =>
      match args with
      | [] => Bf.splitTr v (.str ",")
      | [d] => Bf.splitTr v d
      | _ => .error .typeError)
  | "join" => some (fun v args =>
      match args with
      | [] => Bf.joinTr v (.str ",")
      | [d] => Bf.joinTr v d
      | _ => .error .typeError)
  | "pad_left" => some (fun v args =>
      match args with
      | [w] => Bf.pad_left v w (.str " ")
      | [w, c] => Bf.pad_left v w c
      | _ => .error .typeError)
  | "pad_right" => some (fun v args =>
      match args with
      | [w] => Bf.pad_right v w (.str " ")
      | [w, c] => Bf.pad_right v w c
      | _ => .error .typeError)
  | "collapse_spaces" => some (arity0 Bf.collapse_spaces)
  | "sentence_case" => some (arity0 Bf.sentence_case)
  | "to_int" => some (arity0 Bf.to_int)
  | "to_float" => some (arity0 Bf.to_float)
  | "to_decimal" => some (fun v args =>
      match args with
      | [] => Bf.to_decimal v (.int 2)
      | [p] => Bf.to_decimal v p
      | _ => .error .typeError)
  | "round" => some (fun v args =>
      match args with
      | [] => Bf.round_num v (.int 0)
      | [d] => Bf.round_num v d
      | _ => .error .typeError)
  | "floor" => some (arity0 Bf.floorTr)
  | "ceil" => some (arity0 Bf.ceilTr)
  | "abs" => some (arity0 Bf.abs_val)
  | "multiply" => some (fun v args =>
      match args with
      | [f] => Bf.multiply v f
      | _ => .error .typeError)
  | "divide" => some (fun v args =>
      match args with
      | [d] => Bf.divide v d
      | _ => .error .typeError)
  | "add" => some (fun v args =>
      match args with
      | [a] => Bf.addTr v a
      | _ => .error .typeError)
  | "subtract" => some (fun v args =>
      match args with
      | [a] => Bf.subtract v a
      | _ => .error .typeError)
  | "min" => some (fun v args =>
      match args with
      | [m] => Bf.min_val v m
      | _ => .error .typeError)
  | "max" => some (fun v args =>
      match args with
      | [m] => Bf.max_val v m
      | _ => .error .typeError)
  | "clamp" => some (fun v args =>
      match args with
      | [a, b] => Bf.clamp v a b
      | _ => .error .typeError)
  | "to_bool" => some (arity0 (fun v => .bool (Bf.to_bool v)))
  | "negate" => some (arity0 Bf.negate)
  | "first" => some (arity0 Bf.first)
  | "last" => some (arity0 Bf.lastTr)
  | "at" => some (fun v args =>
      match args with
      | [i] => Bf.atIdx v i
      | _ => .error .typeError)
  | "flatten" => some (arity0 (fun v => .arr (Bf.flattenTr v)))
  | "reverse" => some (arity0 Bf.reverseTr)
  | "take" => some (fun v args =>
      match args with
      | [n] => Bf.takeTr v n
      | _ => .error .typeError)
  | "skip" => some (fun v args =>
      match args with
      | [n] => Bf.skipTr v n
      | _ => .error .typeError)
  | "count" => some (arity0 Bf.count)
  | "sum" => some (arity0 Bf.sum_arr)
  | "avg" => some (arity0 Bf.avg)
  | "wrap" => some (arity0 Bf.wrap)
  | "unwrap" => some (arity0 Bf.unwrap)
  | "default" => some (fun v args =>
      match args with
      | [d] => .ok (Bf.defaultTr v d)
      | _ => .error .typeError)
  | "if_empty" => some (fun v args =>
      match args with
      | [d] => .ok (Bf.if_empty v d)
      | _ => .error .typeError)
  | "if_null" => some (fun v args =>
      match args with
      | [d] => .ok (Bf.if_null v d)
      | _ => .error .typeError)
  | "required" => some (arity0M Bf.required)
  | "optional" => some (arity0 Bf.optionalTr)
  | "when" => some (fun v args =>
      match args with
      | [m, r] => .ok (Bf.whenTr v m r)
      | _ => .error .typeError)
  | "else" => some (fun v args =>
      match args with
      | [d] => .ok (Bf.else_val v d)
      | _ => .error .typeError)
  | "in" => some (fun v args => .ok (Bf.in_list v args))
  | "not_in" => some (fun v args => .ok (Bf.not_in_list v args))
  | "constant" => some (arity0 Bf.constantTr)
  | "raw" => some (arity0 Bf.raw)
  | "mask" => some (fun v args =>
      match args with
      | [] => Bf.mask v (.int 4)
      | [k] => Bf.mask v k
      | _ => .error .typeError)
  | "to_string" => some (arity0 Bf.to_string)
  | _ => none

/-! ## Mapping-file AST (parser.py dataclasses)

`SourcePath.array_access` is initialised to `None` by `_parse_path` and
never assigned (bracket groups are folded into the segment text), so the
field is omitted here.  `Mapping.line_number` is kept but plays no
semantic role. -/

structure SourcePath where
  segments : List String
  is_optional : Bool
deriving Repr, DecidableEq

structure TargetPath where
  segments : List String
deriving Repr, DecidableEq

structure TransformAST where
  name : String
  args : List Value
  is_alias : Bool
deriving Repr

structure AliasDef where
  name : String
  transforms : List TransformAST
  parameters : List String
deriving Repr

inductive SrcExpr where
  | path (p : SourcePath)
  | merge (parts : List (SourcePath ⊕ String)) (op : String)
  | compute (expression : String) (ty : String)
  | const (v : Value)
deriving Repr

inductive TgtExpr where
  | path (p : TargetPath)
  | skipT
deriving Repr

structure Condition where
  fieldName : String
  op : String
  value : Value
deriving Repr

inductive MapItem where
  | mapping (source : SrcExpr) (target : TgtExpr)
      (transforms : List TransformAST) (line : Nat)
  | condBlock (condition : Option Condition) (body : List MapItem)
  | nested (body : List MapItem)
deriving Repr

structure LookupDef where
  name : String
  source : String ⊕ List (String × Value)
deriving Repr

structure FunctionDef where
  name : String
  spec : String
  aliasName : Option String
deriving Repr

structure MappingFile where
  config : List (String × Value)
  aliases : List (String × AliasDef)
  lookups : List (String × LookupDef)
  functions : List (String × FunctionDef)
  mappings : List MapItem
deriving Repr

/-- `".".join(segments)` implemented over char lists so that proofs can
proceed by list induction. -/
def dotJoinCh : List (List Char) → List Char
  | [] => []
  | [s] => s
  | s :: rest => s ++ '.' :: dotJoinCh rest

def dotJoin (segs : List String) : String :=
  String.mk (dotJoinCh (segs.map String.toList))

/-- `str(SourcePath)`: dotted segments with the trailing `?` marker for
optional paths (the marker is part of the rendered string, which is what
`get_value` receives). -/
def SourcePath.render (p : SourcePath) : String :=
  dotJoin p.segments ++ (if p.is_optional then "?" else "")

/-- `str(TargetPath)`. -/
def TargetPath.render (p : TargetPath) : String := dotJoin p.segments

/-! ## Evaluator (`ExpressionEvaluator`) and transformer
(`SchemaMapTransformer`)

The transformer's external functions (`FunctionRegistry._functions`,
populated by dynamic imports) are modelled as an abstract map
`String → Option ExtFn`; a registered callable is an arbitrary Lean
function on the value model.  `@now`/`@uuid` results are the
parameters `nowS`/`uuidS` (one fixed instant / one fresh identifier per
call, as in the source).  The `_when_state` dict of the evaluator is the
boolean `whenM` threaded through transform application. -/

abbrev ExtFn := List Value → PyM Value

def alistGet {α : Type} : List (String × α) → String → Option α
  | [], _ => none
  | (k, v) :: rest, key => if k = key then some v else alistGet rest key

structure EvCtx where
  lookups : List (String × Value)
  aliases : List (String × AliasDef)
  ext : String → Option ExtFn
  cfg : List (String × Value)
  nowS : String
  uuidS : String

def isNull : Value → Bool
  | .null => true
  | _ => false

mutual
/-- `ExpressionEvaluator.apply_transform` (lines 353–420): alias
expansion, the intercepted `lookup`/`when`/`else` names, external
functions (errors wrapped), then builtins (all their exceptions
swallowed, returning the value unchanged). -/
def applyTransform (fuel : Nat) (ctx : EvCtx) (st : Bool) (value : Value)
    (name : String) (args : List Value) (isAlias : Bool) :
    PyM (Value × Bool) :=
  match fuel with
  | 0 => .error .recursionError
  | fuel + 1 =>
    if isAlias then
      match alistGet ctx.aliases name with
      | some ad => applyAliasChain fuel ctx st value ad.transforms
      | none => .ok (value, st)
    else if name = "lookup" then
      match args with
      | [] => .ok (value, st)
      | lookupRef :: _ =>
        let lookupName :=
          match lookupRef with
          | .str s => if strStartsWith s "@" then s.drop 1 else s
          | v => pyStr v
        let table := (alistGet ctx.lookups lookupName).getD (.obj [])
        match table with
        | .obj kvs =>
          match value with
          | .arr _ => .error .typeError
          | .obj _ => .error .typeError
          | _ =>
            match kvs.find? (fun p => pyEq (.str p.1) value) with
            | some p => .ok (p.2, st)
            | none => .ok (value, st)
        | _ => .ok (value, st)
    else if name = "when" then
      match args with
      | m :: r :: _ =>
        if pyEq value m then .ok (r, true) else .ok (value, st)
      | _ => .ok (value, st)
    else if name = "else" then
      if !st then .ok (args.head?.getD value, st)
      else .ok (value, false)
    else
      match ctx.ext name with
      | some f =>
        match f (value :: args) with
        | .ok v => .ok (v, st)
        | .error _ => .error .externalFunctionError
      | none =>
        match getFunction name with
        | some f =>
          match f value args with
          | .ok v => .ok (v, st)
          | .error _ => .ok (value, st)
        | none => .ok (value, st)

/-- The alias-body loop of `apply_transform` (also the loop of
`SchemaMapTransformer._apply_transforms_single`).  Fuel is spent once
per list step so the mutual recursion is structural. -/
def applyAliasChain (fuel : Nat) (ctx : EvCtx) (st : Bool) (value : Value)
    (ts : List TransformAST) : PyM (Value × Bool) :=
  match fuel with
  | 0 => .error .recursionError
  | fuel + 1 =>
    match ts with
    | [] => .ok (value, st)
    | t :: rest =>
      match applyTransform fuel ctx st value t.name t.args t.is_alias with
      | .error e => .error e
      | .ok p => applyAliasChain fuel ctx p.2 p.1 rest
end

def aggNames : List String := ["sum", "count", "avg", "min", "max"]

def isWordChar (c : Char) : Bool := c.isAlphanum || c = '_'

/-- Content before the last `)` of a char list, if any. -/
def lastRParen (cs : List Char) : Option (List Char) :=
  match cs.reverse.findIdx? (fun c => c = ')') with
  | none => none
  | some k => some (cs.take (cs.length - 1 - k))

/-- The function-call shape of `evaluate_expression`
(regex `(\w+)\((.+)\)` under `re.match`): leading word, `(`, at least
one character up to the last `)`. -/
def findCall (cs : List Char) : Option (String × List Char) :=
  match cs.span isWordChar with
  | (w, '(' :: rest2) =>
    if w.isEmpty then none
    else
      match lastRParen rest2 with
      | some inner => if inner.isEmpty then none else some (String.mk w, inner)
      | none => none
  | _ => none

/-- `ExpressionEvaluator._evaluate_aggregation` (lines 468–498). -/
def evalAggregation (fname : String) (argsStr : String) (data : Value) :
    PyM Value := do
  let values ← getValueStr argsStr data
  if fname = "sum" then
    match values with
    | .arr xs =>
      match (xs.filter (fun v => !isNull v)).mapM pyFloat with
      | .error e => .error e
      | .ok [] => .ok (.int 0)
      | .ok qs => .ok (.float (qs.foldl (· + ·) 0))
    | v =>
      if pyTruthy v then (pyFloat v).map Value.float else .ok (.int 0)
  else if fname = "count" then
    match values with
    | .arr xs => .ok (.int xs.length)
    | v => .ok (.int (if isNull v then 0 else 1))
  else if fname = "avg" then
    match values with
    | .arr [] => .ok (.int 0)
    | .arr xs =>
      match (xs.filter (fun v => !isNull v)).mapM pyFloat with
      | .error e => .error e
      | .ok qs => .ok (.float ((qs.foldl (· + ·) 0) / (xs.length : Rat)))
    | _ => .ok (.int 0)
  else if fname = "min" then
    match values with
    | .arr [] => .ok values
    | .arr xs =>
      match xs.filter (fun v => !isNull v) with
      | [] => .error .valueError
      | y :: ys => pyFold (fun acc z => (pyLt z acc).map (fun b => if b then z else acc)) y ys
    | v => .ok v
  else if fname = "max" then
    match values with
    | .arr [] => .ok values
    | .arr xs =>
      match xs.filter (fun v => !isNull v) with
      | [] => .error .valueError
      | y :: ys => pyFold (fun acc z => (pyGt z acc).map (fun b => if b then z else acc)) y ys
    | v => .ok v
  else .ok .null
where
  pyFold (f : Value → Value → PyM Value) : Value → List Value → PyM Value
    | acc, [] => .ok acc
    | acc, z :: rest =>
      match f acc z with
      | .error e => .error e
      | .ok acc2 => pyFold f acc2 rest

/-- `ExpressionEvaluator._parse_function_args` splitter (lines 522–554):
commas at paren depth 0 outside string literals separate arguments;
empty (stripped) pieces are dropped. -/
def splitArgsStr (cs : List Char) : List (List Char) :=
  let step := fun (st : List Char × Int × Option Char × List (List Char)) (c : Char) =>
    let (cur, depth, strCh, acc) := st
    match strCh with
    | some q =>
      if c = q then (cur ++ [c], depth, none, acc)
      else (cur ++ [c], depth, some q, acc)
    | none =>
      if c = '"' ∨ c = '\'' then (cur ++ [c], depth, some c, acc)
      else if c = '(' then (cur ++ [c], depth + 1, none, acc)
      else if c = ')' then (cur ++ [c], depth - 1, none, acc)
      else if c = ',' ∧ depth = 0 then
        let a := chStrip cur
        (([] : List Char), depth, none, if a.isEmpty then acc else acc ++ [a])
      else (cur ++ [c], depth, none, acc)
  ((cs ++ [',']).foldl step ([], 0, none, [])).2.2.2

def splitOnceCh (c : Char) (cs : List Char) : List Char × Option (List Char) :=
  match cs.span (fun x => x ≠ c) with
  | (pre, []) => (pre, none)
  | (pre, _ :: post) => (pre, some post)

def arithOps : List Char := ['*', '/', '+', '-']

mutual
/-- `ExpressionEvaluator.evaluate_expression` (lines 422–466). -/
def evalExpr (fuel : Nat) (ctx : EvCtx) (expr : String) (data : Value) :
    PyM Value :=
  match fuel with
  | 0 => .error .recursionError
  | fuel + 1 =>
    let e := pyStrip expr
    let ecs := e.toList
    match findCall ecs with
    | some fi =>
      if fi.1 ∈ aggNames then
        evalAggregation fi.1 (String.mk (chStrip fi.2)) data
      else
        match ctx.ext fi.1 with
        | some _ => callExternal fuel ctx fi.1 (String.mk (chStrip fi.2)) data
        | none => evalTail fuel ctx ecs data
    | none => evalTail fuel ctx ecs data

/-- The arithmetic fallthrough and final bare-path read of
`evaluate_expression`. -/
def evalTail (fuel : Nat) (ctx : EvCtx) (ecs : List Char) (data : Value) :
    PyM Value :=
  match fuel with
  | 0 => .error .recursionError
  | fuel + 1 =>
    match tryArith fuel ctx arithOps ecs data with
    | .error e2 => .error e2
    | .ok (some v) => .ok v
    | .ok none => getValueStr (String.mk ecs) data

/-- The operator loop of `evaluate_expression`: split at the first
occurrence, evaluate both sides, apply the float operation; a
`ValueError`/`TypeError` from the conversion moves on to the next
operator, division by zero propagates. -/
def tryArith (fuel : Nat) (ctx : EvCtx) (ops : List Char) (ecs : List Char)
    (data : Value) : PyM (Option Value) :=
  match fuel with
  | 0 => .error .recursionError
  | fuel + 1 =>
    match ops with
    | [] => .ok none
    | op :: restOps =>
      match splitOnceCh op ecs with
      | (_, none) => tryArith fuel ctx restOps ecs data
      | (l, some r) =>
        match evalExpr fuel ctx (String.mk (chStrip l)) data with
        | .error e => .error e
        | .ok left =>
          match evalExpr fuel ctx (String.mk (chStrip r)) data with
          | .error e => .error e
          | .ok right =>
            if isNull left ∨ isNull right then tryArith fuel ctx restOps ecs data
            else
              match pyFloat left, pyFloat right with
              | .ok a, .ok b =>
                if op = '*' then .ok (some (.float (a * b)))
                else if op = '/' then
                  if b = 0 then .error .zeroDivisionError
                  else .ok (some (.float (a / b)))
                else if op = '+' then .ok (some (.float (a + b)))
                else .ok (some (.float (a - b)))
              | _, _ => tryArith fuel ctx restOps ecs data

/-- `_call_external_function` (lines 500–520). -/
def callExternal (fuel : Nat) (ctx : EvCtx) (fname : String)
    (argsStr : String) (data : Value) : PyM Value :=
  match fuel with
  | 0 => .error .recursionError
  | fuel + 1 =>
    match ctx.ext fname with
    | none => .error .other
    | some f =>
      match evalArgs fuel ctx (splitArgsStr argsStr.toList) data with
      | .error e => .error e
      | .ok args =>
        match f args with
        | .ok v => .ok v
        | .error _ => .error .externalFunctionError

def evalArgs (fuel : Nat) (ctx : EvCtx) (argStrs : List (List Char))
    (data : Value) : PyM (List Value) :=
  match fuel with
  | 0 => .error .recursionError
  | fuel + 1 =>
    match argStrs with
    | [] => .ok []
    | a :: rest =>
      match evalArg fuel ctx a data with
      | .error e => .error e
      | .ok v =>
        match evalArgs fuel ctx rest data with
        | .error e => .error e
        | .ok vs => .ok (v :: vs)

/-- `_evaluate_arg` (lines 556–586). -/
def evalArg (fuel : Nat) (ctx : EvCtx) (arg0 : List Char) (data : Value) :
    PyM Value :=
  match fuel with
  | 0 => .error .recursionError
  | fuel + 1 =>
  let arg := chStrip arg0
  let isQuoted :=
    match arg.head?, arg.getLast? with
    | some '"', some '"' => true
    | some '\'', some '\'' => true
    | _, _ => false
  if isQuoted then .ok (.str (String.mk ((arg.take (arg.length - 1)).drop 1)))
  else
    let s := String.mk arg
    let numVal : Option Value :=
      if arg.contains '.' then (pyParseFloat s).map Value.float
      else (pyParseInt s).map Value.int
    match numVal with
    | some v => .ok v
    | none =>
      if strLower s = "true" then .ok (.bool true)
      else if strLower s = "false" then .ok (.bool false)
      else if strLower s = "null" ∨ strLower s = "none" then .ok .null
      else if arg.contains '(' then evalExpr fuel ctx s data
      else getValueStr s data
end

/-- `ExpressionEvaluator.evaluate_condition` (lines 588–610) for a
present condition (the `None` case is handled by `_apply_conditional`
before this is reached). -/
def evalCondition (cond : Condition) (data : Value) : PyM Bool :=
  match getValueStr cond.fieldName data with
  | .error e => .error e
  | .ok fv =>
    let tv := cond.value
    if cond.op = "==" then .ok (pyEq fv tv)
    else if cond.op = "!=" then .ok (!pyEq fv tv)
    else if cond.op = ">" then pyGt fv tv
    else if cond.op = "<" then pyLt fv tv
    else if cond.op = ">=" then pyGe fv tv
    else if cond.op = "<=" then pyLe fv tv
    else .ok false

/-- Concatenation branch of `SchemaMapTransformer._evaluate_merge`:
string-literal parts pass through, path parts are stringified unless
they resolve to `None`. -/
def mergeConcat (data : Value) : List (SourcePath ⊕ String) → PyM (List String)
  | [] => .ok []
  | part :: rest =>
    match part with
    | .inr s =>
      match mergeConcat data rest with
      | .error e => .error e
      | .ok l => .ok (s :: l)
    | .inl p =>
      match getValueStr p.render data with
      | .error e => .error e
      | .ok val =>
        match mergeConcat data rest with
        | .error e => .error e
        | .ok l => .ok (if isNull val then l else pyStr val :: l)

/-- Coalesce branch of `_evaluate_merge`: first non-`None` path value, a
string-literal part always wins when reached. -/
def mergeCoalesce (data : Value) : List (SourcePath ⊕ String) → PyM Value
  | [] => .ok .null
  | part :: rest =>
    match part with
    | .inl p =>
      match getValueStr p.render data with
      | .error e => .error e
      | .ok val => if isNull val then mergeCoalesce data rest else .ok val
    | .inr s => .ok (.str s)

/-- `SchemaMapTransformer._evaluate_merge` (lines 369–394). -/
def evalMerge (parts : List (SourcePath ⊕ String)) (op : String)
    (data : Value) : PyM Value :=
  if op = "+" then (mergeConcat data parts).map (fun l => .str (String.join l))
  else if op = "??" then mergeCoalesce data parts
  else .ok .null

/-- `SchemaMapTransformer._evaluate_function_call` (lines 354–367):
`@call(name, args...)` splits at the first comma, requires a registered
function (else `TransformError`), and wraps call failures as the
registry does (`FunctionRegistryError`). -/
def evalFunctionCall (fuel : Nat) (ctx : EvCtx) (expr : String)
    (data : Value) : PyM Value :=
  let sp := splitOnceCh ',' expr.toList
  let fname := String.mk (chStrip sp.1)
  match ctx.ext fname with
  | none => .error .transformError
  | some f =>
    let argsRes : PyM (List Value) :=
      match sp.2 with
      | none => .ok []
      | some rest => evalArgs fuel ctx (splitArgsStr rest) data
    match argsRes with
    | .error e => .error e
    | .ok args =>
      match f args with
      | .ok v => .ok v
      | .error _ => .error .registryError

/-- `SchemaMapTransformer._get_source_value` together with
`_evaluate_compute` (lines 312–352). -/
def getSourceValue (fuel : Nat) (ctx : EvCtx) (src : SrcExpr) (data : Value) :
    PyM Value :=
  match src with
  | .const v => .ok v
  | .compute e ty =>
    if ty = "now" then .ok (.str (ctx.nowS ++ "Z"))
    else if ty = "uuid" then .ok (.str ctx.uuidS)
    else if ty = "call" then evalFunctionCall fuel ctx e data
    else evalExpr fuel ctx e data
  | .merge parts op => evalMerge parts op data
  | .path p => getValueStr p.render data

/-- `SchemaMapTransformer._apply_transforms` (lines 396–405): an empty
chain passes the value through, a list value is transformed
element-wise, otherwise the chain runs once. -/
def applyTransformsList (fuel : Nat) (ctx : EvCtx) (st : Bool)
    (xs : List Value) (trs : List TransformAST) : PyM (List Value × Bool) :=
  match xs with
  | [] => .ok ([], st)
  | x :: rest =>
    match applyAliasChain fuel ctx st x trs with
    | .error e => .error e
    | .ok p =>
      match applyTransformsList fuel ctx p.2 rest trs with
      | .error e => .error e
      | .ok q => .ok (p.1 :: q.1, q.2)

def applyTransforms (fuel : Nat) (ctx : EvCtx) (st : Bool) (v : Value)
    (trs : List TransformAST) : PyM (Value × Bool) :=
  if trs.isEmpty then .ok (v, st)
  else
    match v with
    | .arr xs =>
      match applyTransformsList fuel ctx st xs trs with
      | .error e => .error e
      | .ok p => .ok (.arr p.1, p.2)
    | _ => applyAliasChain fuel ctx st v trs

/-- Accumulated transformer state: the output record under construction
and the evaluator's `_when_state`. -/
structure TState where
  tgt : Value
  whenM : Bool

def cfgMissingSkip (cfg : List (String × Value)) : Bool :=
  match objGet cfg "missing_fields" with
  | some v => pyEq v (.str "skip")
  | none => false

/-- `SchemaMapTransformer._apply_mapping` (lines 290–310): skip targets
do nothing, a `None` source value is skipped for optional paths or under
`missing_fields: skip`, otherwise transforms run and the target path is
written. -/
def applyMapping (fuel : Nat) (ctx : EvCtx) (src : SrcExpr) (target : TgtExpr)
    (trs : List TransformAST) (data : Value) (ts : TState) : PyM TState :=
  match target with
  | .skipT => .ok ts
  | .path tp =>
    match getSourceValue fuel ctx src data with
    | .error e => .error e
    | .ok value =>
      if isNull value &&
          (match src with
           | .path p => p.is_optional
           | _ => false) then .ok ts
      else if isNull value && cfgMissingSkip ctx.cfg then .ok ts
      else
        match applyTransforms fuel ctx ts.whenM value trs with
        | .error e => .error e
        | .ok p =>
          match setValueStr tp.render p.1 ts.tgt with
          | .error e => .error e
          | .ok tgt2 => .ok { tgt := tgt2, whenM := p.2 }

mutual
/-- `SchemaMapTransformer._apply_mapping_item`, `_apply_conditional` and
`_apply_nested_block` (lines 280–437): an `@else` block (condition
`None`) runs unconditionally, a `@when` block runs exactly when its
condition evaluates true, nested blocks run unconditionally. -/
def applyMappingItem (fuel : Nat) (ctx : EvCtx) (item : MapItem)
    (data : Value) (ts : TState) : PyM TState :=
  match item with
  | .mapping src tgt trs _ => applyMapping fuel ctx src tgt trs data ts
  | .condBlock none body => applyItems fuel ctx body data ts
  | .condBlock (some c) body =>
    match evalCondition c data with
    | .error e => .error e
    | .ok b => if b then applyItems fuel ctx body data ts else .ok ts
  | .nested body => applyItems fuel ctx body data ts

def applyItems (fuel : Nat) (ctx : EvCtx) (items : List MapItem)
    (data : Value) (ts : TState) : PyM TState :=
  match items with
  | [] => .ok ts
  | item :: rest =>
    match applyMappingItem fuel ctx item data ts with
    | .error e => .error e
    | .ok ts2 => applyItems fuel ctx rest data ts2
end

mutual
/-- `SchemaMapTransformer._remove_nulls` (lines 439–445): drop `None`
dict values and `None` list elements, recursively, bottom-up. -/
def removeNulls : Value → Value
  | .obj kvs => .obj (removeNullsFields kvs)
  | .arr xs => .arr (removeNullsList xs)
  | v => v

def removeNullsFields : List (String × Value) → List (String × Value)
  | [] => []
  | (k, v) :: rest =>
    if isNull v then removeNullsFields rest
    else (k, removeNulls v) :: removeNullsFields rest

def removeNullsList : List Value → List Value
  | [] => []
  | v :: rest =>
    if isNull v then removeNullsList rest
    else removeNulls v :: removeNullsList rest
end

/-- `SchemaMapTransformer._load_lookups` (lines 126–140): inline dicts
are used as given; file sources are modelled with an absent file system,
so the load failure degrades to an empty table as in the source. -/
def loadLookups : List (String × LookupDef) → List (String × Value)
  | [] => []
  | (n, ld) :: rest =>
    (n, match ld.source with
        | .inl _ => Value.obj []
        | .inr kvs => Value.obj kvs) :: loadLookups rest

def cfgOmit (cfg : List (String × Value)) : Bool :=
  match objGet cfg "null_handling" with
  | some v => pyEq v (.str "omit")
  | none => false

/-- `SchemaMapTransformer.transform` (lines 258–278): run the body over
an empty output map, then strip nulls when `null_handling` is `omit`.
The external-function map produced by `_load_configured_functions` is
the abstract parameter `ext`; `nowS`/`uuidS` stand for the @now instant
(ISO form, before the appended `Z`) and the fresh @uuid. -/
def evTransform (fuel : Nat) (mf : MappingFile) (ext : String → Option ExtFn)
    (nowS uuidS : String) (record : Value) : PyM Value :=
  let ctx : EvCtx :=
    { lookups := loadLookups mf.lookups
      aliases := mf.aliases
      ext := ext
      cfg := mf.config
      nowS := nowS
      uuidS := uuidS }
  match applyItems fuel ctx mf.mappings record { tgt := .obj [], whenM := false } with
  | .error e => .error e
  | .ok ts => if cfgOmit mf.config then .ok (removeNulls ts.tgt) else .ok ts.tgt

/-! ## Compiled backend (`PythonCodeGenerator`, python_gen.py)

`generate` emits one straight-line Python class per mapping file; its
behaviour is embedded here as a function of the same AST.  The helper
methods of the emitted template (`_get_value`, `_set_value`,
`_get_array_values`, `_remove_nulls`, `_coalesce`, `_lookup`,
`_call_function`, `_evaluate_expr`, `_parse_args`) and the inlined
per-transform expressions of `_transform_to_code` are each translated
below.  Two modelling notes: the textual `_v`-substitution used for
alias expansion is modelled as sequential application of the alias
chain, and an exception caught by the `try/except` of an optional
mapping restores the whole target (the in-place Python code can retain
partial writes; no result below depends on that corner).
`regex_replace` is not modelled and maps to `PyErr.other`. -/

/-- Python `path.split(sep)` keeping empty pieces. -/
def chSplit (sep : Char) : List Char → List (List Char)
  | [] => [[]]
  | c :: rest =>
    match chSplit sep rest with
    | [] => [[]]
    | h :: t => if c = sep then [] :: h :: t else (c :: h) :: t

/-- Fuelled splitter loop; each split strictly shrinks the remainder
(`splitStarBr_len`), so the fuel `cs.length + 1` is never exhausted. -/
def splitAllAux : Nat → List Char → List (List Char)
  | 0, cs => [cs]
  | fuel + 1, cs =>
    match splitStarBr cs with
    | none => [cs]
    | some pq => pq.1 :: splitAllAux fuel pq.2

/-- `path.split("[*]")` (all pieces). -/
def splitAllStarBr (cs : List Char) : List (List Char) :=
  splitAllAux (cs.length + 1) cs

/-- Segment loop of the template's `_get_value` (python_gen.py template
lines 149–181): `?` already removed, dots split; a bracket segment reads
the key, then indexes only when the value is a list (a `*` index returns
the whole list, a bad index or out-of-range read yields `None`); a
non-list value falls through unchanged. -/
def cgGetSegs (cur : Value) : List (List Char) → PyM Value
  | [] => .ok cur
  | seg :: rest =>
    match cur with
    | .null => .ok .null
    | _ =>
      if seg.contains '[' then
        match seg.findIdx? (fun c => c = ']') with
        | none => .error .valueError
        | some pR =>
          let key := seg.takeWhile (fun c => c ≠ '[')
          let pL := key.length
          let idxStr := (seg.take pR).drop (pL + 1)
          let cur1 :=
            if key ≠ [] then
              match cur with
              | .obj kvs => (objGet kvs (String.mk key)).getD .null
              | _ => .null
            else cur
          match cur1 with
          | .null => .ok .null
          | .arr xs =>
            if idxStr = ['*'] then .ok (.arr xs)
            else
              match pyParseInt (String.mk idxStr) with
              | none => .ok .null
              | some i => cgGetSegs ((pyIdx xs i).getD .null) rest
          | other => cgGetSegs other rest
      else
        match cur with
        | .obj kvs => cgGetSegs ((objGet kvs (String.mk seg)).getD .null) rest
        | _ => cgGetSegs .null rest

/-- The template's `_get_value`. -/
def cgGetValue (data : Value) (path : String) : PyM Value :=
  if path = "" then .ok data
  else
    match data with
    | .null => .ok .null
    | _ => cgGetSegs data (chSplit '.' (path.toList.filter (fun c => c ≠ '?')))

/-- The template's `_set_value` (lines 183–209): dotted walk creating
dicts (or a list for a bracket segment, whose index is ignored); at a
bracket leaf a list value replaces the entry and a scalar value is
appended. -/
def cgSetSegs (cur : Value) : List (List Char) → Value → PyM Value
  | [], _ => .error .other
  | [fin], v =>
    match cur with
    | .obj kvs =>
      if fin.contains '[' then
        let key := String.mk (fin.takeWhile (fun c => c ≠ '['))
        let kvs1 :=
          match objGet kvs key with
          | none => objSet kvs key (.arr [])
          | some _ => kvs
        match v with
        | .arr _ => .ok (.obj (objSet kvs1 key v))
        | _ =>
          match objGet kvs1 key with
          | some (.arr xs) => .ok (.obj (objSet kvs1 key (.arr (xs ++ [v]))))
          | some _ => .error .attributeError
          | none => .error .other
      else .ok (.obj (objSet kvs (String.mk fin) v))
    | _ => .error .typeError
  | seg :: next :: rest, v =>
    match cur with
    | .obj kvs =>
      let isBr := seg.contains '['
      let key :=
        if isBr then String.mk (seg.takeWhile (fun c => c ≠ '['))
        else String.mk seg
      let fresh := if isBr then Value.arr [] else Value.obj []
      let kvs1 :=
        match objGet kvs key with
        | none => objSet kvs key fresh
        | some _ => kvs
      match objGet kvs1 key with
      | none => .error .other
      | some child =>
        match cgSetSegs child (next :: rest) v with
        | .error e => .error e
        | .ok child2 => .ok (.obj (objSet kvs1 key child2))
    | _ => .error .typeError

def cgSetValue (data : Value) (path : String) (v : Value) : PyM Value :=
  cgSetSegs data (chSplit '.' path.toList) v

/-- The template's `_get_array_values` (lines 211–227): unlike the
evaluator it applies `_get_value` to every element, dict or not. -/
def cgGetArrayValues (data : Value) (path : String) : PyM Value :=
  let pcs := path.toList
  if ¬ hasStarBr pcs then cgGetValue data path
  else
    let parts := splitAllStarBr pcs
    let arrayPath := String.mk (parts.headD [])
    let suffix :=
      match parts with
      | _ :: p1 :: _ => String.mk (p1.dropWhile (fun c => c = '.'))
      | _ => ""
    match cgGetValue data arrayPath with
    | .error e => .error e
    | .ok a =>
      match a with
      | .arr items =>
        if suffix = "" then .ok (.arr items)
        else
          match items.mapM (fun it => cgGetValue it suffix) with
          | .error e => .error e
          | .ok res => .ok (.arr res)
      | _ => .ok (.arr [])

/-- The template's `_remove_nulls`, textually identical to the
transformer's. -/
def cgRemoveNulls : Value → Value := removeNulls

/-- The template's `_coalesce`. -/
def cgCoalesce : List Value → Value
  | [] => .null
  | v :: rest => if isNull v then cgCoalesce rest else v

/-- The template's `_lookup`: `table.get(value, value)` over the inlined
tables (an unhashable probe raises `TypeError`). -/
def cgLookup (lookups : List (String × Value)) (tableName : String)
    (v : Value) : PyM Value :=
  let table := (alistGet lookups tableName).getD (.obj [])
  match table with
  | .obj kvs =>
    match v with
    | .arr _ => .error .typeError
    | .obj _ => .error .typeError
    | _ => .ok (((kvs.find? (fun p => pyEq (.str p.1) v)).map (fun p => p.2)).getD v)
  | _ => .error .other

/-- `_generate_lookup_dict` (python_gen.py lines 317–329): only inline
dict lookups are embedded, and both keys and values pass through an
f-string, so every table value becomes a string literal. -/
def cgLookups : List (String × LookupDef) → List (String × Value)
  | [] => []
  | (n, ld) :: rest =>
    match ld.source with
    | .inr kvs =>
      (n, Value.obj (kvs.map (fun p => (p.1, Value.str (pyStr p.2)))))
        :: cgLookups rest
    | .inl _ => cgLookups rest

/-- The template's `_call_function`: unregistered names return `None`,
call errors propagate unwrapped. -/
def cgCallFunction (ext : String → Option ExtFn) (name : String)
    (args : List Value) : PyM Value :=
  match ext name with
  | some f => f args
  | none => .ok .null

/-- The template's `_parse_args` (lines 280–297): naive comma split,
then number / quoted string / path, in that order. -/
def cgParseArgsGo (source : Value) : List (List Char) → PyM (List Value)
  | [] => .ok []
  | a0 :: rest =>
    let arg := chStrip a0
    let s := String.mk arg
    let numTry : Option Value :=
      if arg.contains '.' then (pyParseFloat s).map Value.float
      else (pyParseInt s).map Value.int
    let one : PyM Value :=
      match numTry with
      | some v => .ok v
      | none =>
        let isQuoted :=
          match arg.head?, arg.getLast? with
          | some '"', some '"' => true
          | some '\'', some '\'' => true
          | _, _ => false
        if isQuoted then
          .ok (.str (String.mk ((arg.take (arg.length - 1)).drop 1)))
        else cgGetValue source s
    match one with
    | .error e => .error e
    | .ok v =>
      match cgParseArgsGo source rest with
      | .error e => .error e
      | .ok vs => .ok (v :: vs)

def cgParseArgs (argsStr : String) (source : Value) : PyM (List Value) :=
  cgParseArgsGo source (chSplit ',' argsStr.toList)

def isArr : Value → Bool
  | .arr _ => true
  | _ => false

/-- The template's `_evaluate_expr` (lines 256–278): the call-shaped
regex, then `sum`/`count`/`avg` (note: `avg` divides by the count of
non-null elements, unlike the interpreter), then a registered external
function, else a bare path read.  `values` is computed before the
branch, as in the source. -/
def cgEvaluateExpr (ext : String → Option ExtFn) (expr : String)
    (source : Value) : PyM Value :=
  match findCall expr.toList with
  | some fi =>
    let inner := String.mk fi.2
    match cgGetValue source inner with
    | .error e => .error e
    | .ok values =>
      if fi.1 = "sum" ∧ isArr values then
        match values with
        | .arr xs =>
          match (xs.filter (fun v => !isNull v)).mapM pyFloat with
          | .error e => .error e
          | .ok [] => .ok (.int 0)
          | .ok qs => .ok (.float (qs.foldl (· + ·) 0))
        | _ => .error .other
      else if fi.1 = "count" then
        match values with
        | .arr xs => .ok (.int xs.length)
        | v => .ok (.int (if pyTruthy v then 1 else 0))
      else if fi.1 = "avg" ∧ isArr values ∧ pyTruthy values then
        match values with
        | .arr xs =>
          match (xs.filter (fun v => !isNull v)).mapM pyFloat with
          | .error e => .error e
          | .ok [] => .ok (.int 0)
          | .ok qs => .ok (.float ((qs.foldl (· + ·) 0) / (qs.length : Rat)))
        | _ => .error .other
      else
        match ext fi.1 with
        | some f =>
          match cgParseArgs inner source with
          | .error e => .error e
          | .ok args => f args
        | none => cgGetValue source expr
  | none => cgGetValue source expr

mutual
/-- `_transform_to_code` (python_gen.py lines 429–526), as the value
semantics of the emitted expression for each transform name.  Alias
references expand to their chain; unknown names pass the value through.
Argument literals are embedded through `repr`/f-strings, so non-string
arguments where the emitted code needs a string raise `TypeError`
at run time exactly as the generated Python would. -/
def cgTransform (fuel : Nat) (aliases : List (String × AliasDef))
    (lookups : List (String × Value)) (t : TransformAST) (v : Value) :
    PyM Value :=
  match fuel with
  | 0 => .error .recursionError
  | fuel + 1 =>
    if t.is_alias then
      match alistGet aliases t.name with
      | some ad => cgTransformChain fuel aliases lookups ad.transforms v
      | none => .ok v
    else
      let name := t.name
      let args := t.args
      if name = "trim" then
        .ok (match v with | .null => .null | _ => .str (pyStrip (pyStr v)))
      else if name = "lowercase" then
        .ok (match v with | .null => .null | _ => .str (strLower (pyStr v)))
      else if name = "uppercase" then
        .ok (match v with | .null => .null | _ => .str (strUpper (pyStr v)))
      else if name = "titlecase" then
        .ok (match v with | .null => .null | _ => .str (pyTitle (pyStr v)))
      else if name = "capitalize" then
        .ok (match v with | .null => .null | _ => .str (pyCapitalize (pyStr v)))
      else if name = "to_int" then
        match v with
        | .null => .ok .null
        | _ => (pyFloat v).map (fun q => .int (ratTrunc q))
      else if name = "to_float" then
        match v with
        | .null => .ok .null
        | _ => (pyFloat v).map Value.float
      else if name = "to_string" then
        .ok (match v with | .null => .null | _ => .str (pyStr v))
      else if name = "to_bool" then
        .ok (match v with | .null => .null | _ => .bool (pyTruthy v))
      else if name = "round" then
        match v with
        | .null => .ok .null
        | _ =>
          let dres : PyM Int :=
            match args.head? with
            | none => .ok 2
            | some (.int n) => .ok n
            | some a =>
              match pyParseInt (pyStr a) with
              | some n => .ok n
              | none => .error .other
          match dres with
          | .error e => .error e
          | .ok d => (pyFloat v).map (fun q => .float (pyRound q d))
      else if name = "abs" then
        match v with
        | .null => .ok .null
        | _ => (pyFloat v).map (fun q => .float |q|)
      else if name = "floor" then
        match v with
        | .null => .ok .null
        | _ => (pyFloat v).map (fun q => .int (ratTrunc q))
      else if name = "ceil" then
        match v with
        | .null => .ok .null
        | _ =>
          (pyFloat v).map (fun q =>
            .int (ratTrunc q + (if q - (⌊q⌋ : Rat) ≠ 0 then 1 else 0)))
      else if name = "default" then
        .ok (match v with | .null => args.headD .null | _ => v)
      else if name = "replace" then
        match v with
        | .null => .ok .null
        | _ =>
          let old : PyM String :=
            match args.head? with
            | none => .ok ""
            | some (.str o) => .ok o
            | some _ => .error .typeError
          let nw : PyM String :=
            match args.get? 1 with
            | none => .ok ""
            | some (.str n) => .ok n
            | some _ => .error .typeError
          match old, nw with
          | .ok o, .ok n => .ok (.str (strReplace (pyStr v) o n))
          | .error e, _ => .error e
          | _, .error e => .error e
      else if name = "regex_replace" then
        match v with
        | .null => .ok .null
        | _ => .error .other
      else if name = "prefix" then
        match v with
        | .null => .ok .null
        | _ =>
          match args.head? with
          | none => .ok (.str (pyStr v))
          | some (.str p) => .ok (.str (p ++ pyStr v))
          | some _ => .error .typeError
      else if name = "suffix" then
        match v with
        | .null => .ok .null
        | _ =>
          match args.head? with
          | none => .ok (.str (pyStr v))
          | some (.str s) => .ok (.str (pyStr v ++ s))
          | some _ => .error .typeError
      else if name = "max_length" then
        match v with
        | .null => .ok .null
        | _ =>
          let nres : PyM Int :=
            match args.head? with
            | none => .ok 255
            | some (.int n) => .ok n
            | some a =>
              match pyParseInt (pyStr a) with
              | some n => .ok n
              | none => .error .other
          match nres with
          | .error e => .error e
          | .ok n => .ok (.str (pySlice (pyStr v) 0 (some n)))
      else if name = "split" then
        match v with
        | .null => .ok .null
        | _ =>
          match args.headD (.str ",") with
          | .str d =>
            if d = "" then .error .valueError
            else .ok (.arr ((strSplitOn (pyStr v) d).map Value.str))
          | _ => .error .typeError
      else if name = "join" then
        match v with
        | .arr xs =>
          match args.headD (.str ",") with
          | .str d =>
            match xs.mapM (fun x =>
                match x with
                | Value.str s => Except.ok s
                | _ => Except.error PyErr.typeError) with
            | .error e => .error e
            | .ok ss => .ok (.str (String.intercalate d ss))
          | _ => .error .typeError
        | _ => .ok v
      else if name = "collapse_spaces" then
        .ok (match v with
             | .null => .null
             | _ => .str (String.intercalate " " (pyWsSplit (pyStr v))))
      else if name = "first" then
        .ok (match v with
             | .arr (x :: xs) => if (x :: xs).isEmpty then v else x
             | _ => v)
      else if name = "last" then
        .ok (match v with
             | .arr (x :: xs) => ((x :: xs).getLast?).getD v
             | _ => v)
      else if name = "count" then
        .ok (match v with
             | .arr xs => .int xs.length
             | w => .int (if pyTruthy w then 1 else 0))
      else if name = "lookup" then
        match args with
        | [] => .ok v
        | lookupRef :: _ =>
          let lookupName :=
            match lookupRef with
            | .str s => if strStartsWith s "@" then s.drop 1 else s
            | w => pyStr w
          cgLookup lookups lookupName v
      else if name = "when" then
        match args with
        | m :: r :: _ => .ok (if pyEq v m then r else v)
        | _ => .ok v
      else if name = "constant" then .ok v
      else .ok v

def cgTransformChain (fuel : Nat) (aliases : List (String × AliasDef))
    (lookups : List (String × Value)) (ts : List TransformAST) (v : Value) :
    PyM Value :=
  match fuel with
  | 0 => .error .recursionError
  | fuel + 1 =>
    match ts with
    | [] => .ok v
    | t :: rest =>
      match cgTransform fuel aliases lookups t v with
      | .error e => .error e
      | .ok v2 => cgTransformChain fuel aliases lookups rest v2
end

/-- Value semantics of `_source_to_code` (python_gen.py lines 380–427):
constants embed as `repr`, `@now`/`@uuid` inline the timestamp/uuid
expressions, `@call` splits at the first comma and goes through
`_call_function`, other computes go through `_evaluate_expr`; merges
concatenate `str(x or "")` (any falsy part becomes empty) or coalesce
eagerly; wildcard paths dispatch at generation time on `"[*]" in path`.
-/
def cgMergeConcat (source : Value) : List (SourcePath ⊕ String) →
    PyM (List String)
  | [] => .ok []
  | part :: rest =>
    let one : PyM String :=
      match part with
      | .inr s => .ok s
      | .inl p =>
        match cgGetValue source p.render with
        | .error e => .error e
        | .ok v => .ok (if pyTruthy v then pyStr v else "")
    match one with
    | .error e => .error e
    | .ok s =>
      match cgMergeConcat source rest with
      | .error e => .error e
      | .ok l => .ok (s :: l)

def cgMergeParts (source : Value) : List (SourcePath ⊕ String) →
    PyM (List Value)
  | [] => .ok []
  | part :: rest =>
    let one : PyM Value :=
      match part with
      | .inr s => .ok (.str s)
      | .inl p => cgGetValue source p.render
    match one with
    | .error e => .error e
    | .ok v =>
      match cgMergeParts source rest with
      | .error e => .error e
      | .ok l => .ok (v :: l)

def cgSourceValue (ext : String → Option ExtFn)
    (nowS uuidS : String) (src : SrcExpr) (source : Value) : PyM Value :=
  match src with
  | .const v => .ok v
  | .compute e ty =>
    if ty = "now" then .ok (.str (nowS ++ "Z"))
    else if ty = "uuid" then .ok (.str uuidS)
    else if ty = "call" then
      let sp := splitOnceCh ',' e.toList
      let fname := String.mk (chStrip sp.1)
      match sp.2 with
      | some rest =>
        match cgParseArgs (String.mk rest) source with
        | .error e2 => .error e2
        | .ok args => cgCallFunction ext fname args
      | none => cgCallFunction ext fname []
    else cgEvaluateExpr ext e source
  | .merge parts op =>
    if op = "+" then
      (cgMergeConcat source parts).map (fun l => .str (String.join l))
    else if op = "??" then
      (cgMergeParts source parts).map cgCoalesce
    else .ok .null
  | .path p =>
    let ps := p.render
    if hasStarBr ps.toList then cgGetArrayValues source ps
    else cgGetValue source ps

/-- `_generate_mapping` (python_gen.py lines 344–378): skip targets emit
nothing; an optional source wraps the emitted statements in
`try/except (KeyError, TypeError, IndexError): pass`. -/
def cgMapping (fuel : Nat) (ext : String → Option ExtFn)
    (aliases : List (String × AliasDef)) (lookups : List (String × Value))
    (nowS uuidS : String) (src : SrcExpr) (tgt : TgtExpr)
    (trs : List TransformAST) (source target : Value) : PyM Value :=
  match tgt with
  | .skipT => .ok target
  | .path tp =>
    let isOpt :=
      match src with
      | .path p => p.is_optional
      | _ => false
    let body : PyM Value :=
      match cgSourceValue ext nowS uuidS src source with
      | .error e => .error e
      | .ok v0 =>
        match cgTransformChain fuel aliases lookups trs v0 with
        | .error e => .error e
        | .ok v1 => cgSetValue target tp.render v1
    if isOpt then
      match body with
      | .error .keyError => .ok target
      | .error .typeError => .ok target
      | .error .indexError => .ok target
      | r => r
    else body

/-- `_generate_mappings` and `_generate_conditional` (python_gen.py
lines 331–342 and 528–549): nested blocks are dropped entirely, and a
conditional block emits only its direct `Mapping` children (all six
comparison operators are supported here, defaulting to `==`). -/
def cgCondMappings (fuel : Nat) (ext : String → Option ExtFn)
    (aliases : List (String × AliasDef)) (lookups : List (String × Value))
    (nowS uuidS : String) (source : Value) :
    List MapItem → Value → PyM Value
  | [], target => .ok target
  | item :: rest, target =>
    match item with
    | .mapping s t trs _ =>
      match cgMapping fuel ext aliases lookups nowS uuidS s t trs source target with
      | .error e => .error e
      | .ok t2 => cgCondMappings fuel ext aliases lookups nowS uuidS source rest t2
    | _ => cgCondMappings fuel ext aliases lookups nowS uuidS source rest target

def cgCompare (op : String) (a b : Value) : PyM Bool :=
  if op = "==" then .ok (pyEq a b)
  else if op = "!=" then .ok (!pyEq a b)
  else if op = ">" then pyGt a b
  else if op = "<" then pyLt a b
  else if op = ">=" then pyGe a b
  else if op = "<=" then pyLe a b
  else .ok (pyEq a b)

def cgItems (fuel : Nat) (ext : String → Option ExtFn)
    (aliases : List (String × AliasDef)) (lookups : List (String × Value))
    (nowS uuidS : String) (source : Value) :
    List MapItem → Value → PyM Value
  | [], target => .ok target
  | item :: rest, target =>
    let step : PyM Value :=
      match item with
      | .mapping s t trs _ =>
        cgMapping fuel ext aliases lookups nowS uuidS s t trs source target
      | .condBlock (some c) body =>
        match cgGetValue source c.fieldName with
        | .error e => .error e
        | .ok fv =>
          match cgCompare c.op fv c.value with
          | .error e => .error e
          | .ok b =>
            if b then
              cgCondMappings fuel ext aliases lookups nowS uuidS source body target
            else .ok target
      | .condBlock none body =>
        cgCondMappings fuel ext aliases lookups nowS uuidS source body target
      | .nested _ => .ok target
    match step with
    | .error e => .error e
    | .ok t2 => cgItems fuel ext aliases lookups nowS uuidS source rest t2

/-- The behaviour of the transformer class produced by
`PythonCodeGenerator.generate` (python_gen.py lines 58–315): inline
lookup tables (string-valued), the `null_handling` config baked in as a
string, the mapping statements in order, then null removal when that
string is `omit`. -/
def genTransform (fuel : Nat) (mf : MappingFile) (ext : String → Option ExtFn)
    (nowS uuidS : String) (source : Value) : PyM Value :=
  let lookups := cgLookups mf.lookups
  let nullHandling :=
    match objGet mf.config "null_handling" with
    | some v => pyStr v
    | none => "keep"
  match cgItems fuel ext mf.aliases lookups nowS uuidS source mf.mappings (.obj []) with
  | .error e => .error e
  | .ok target =>
    if nullHandling = "omit" then .ok (cgRemoveNulls target) else .ok target

/-! ## Function registry (`FunctionRegistry`, function_registry.py)

Registered callables are Lean functions on the value model; the module
and file systems used by the dynamic imports are abstract environments
`String → Option PyModule` (a resolvable name yields the module's
callable attributes).  Metadata is not modelled. -/

abbrev PyModule := List (String × ExtFn)

def alistSet {α : Type} : List (String × α) → String → α → List (String × α)
  | [], key, v => [(key, v)]
  | (k, w) :: rest, key, v =>
    if k = key then (k, v) :: rest else (k, w) :: alistSet rest key v

structure Registry where
  functions : List (String × ExtFn)

/-- The reserved set checked by `FunctionRegistry.register`
(function_registry.py lines 80–85). -/
def reservedNames : List String :=
  ["sum", "count", "avg", "min", "max", "len", "abs", "round",
   "int", "float", "str", "bool", "list", "dict"]

def Registry.hasFunction (r : Registry) (name : String) : Bool :=
  (alistGet r.functions name).isSome

/-- `FunctionRegistry.register` (lines 56–93): empty names and the
reserved set are rejected with `FunctionRegistryError` before anything
is stored (the callable check always passes for a Lean function). -/
def Registry.register (r : Registry) (name : String) (f : ExtFn) :
    PyM Registry :=
  if name = "" then .error .registryError
  else if name ∈ reservedNames then .error .registryError
  else .ok { functions := alistSet r.functions name f }

/-- First occurrence of `pat` inside a char list, split around it. -/
def splitFirstSub (pat : List Char) : List Char → Option (List Char × List Char)
  | [] => if pat.isEmpty then some ([], []) else none
  | c :: rest =>
    if (c :: rest).take pat.length = pat then
      some ([], (c :: rest).drop pat.length)
    else
      (splitFirstSub pat rest).map
        (fun (p : List Char × List Char) => (c :: p.1, p.2))

/-- `spec.rsplit(":", 1)`: split at the last colon. -/
def rsplitColon (cs : List Char) : Option (List Char × List Char) :=
  match cs.reverse.findIdx? (fun c => c = ':') with
  | none => none
  | some k =>
    let i := cs.length - 1 - k
    some (cs.take i, cs.drop (i + 1))

/-- `FunctionRegistry.register_from_spec` (lines 216–270): optional
`" as alias"` suffix, module:function split at the last colon, a
dynamic import through `ienv`; the function is stored under the alias (or its
own name) with **no reserved-name check**. -/
def registerFromSpec (ienv : String → Option PyModule) (r : Registry)
    (spec : String) : PyM (Registry × String) :=
  let scs := spec.toList
  let sa := splitFirstSub (String.toList " as ") scs
  let spec1 := match sa with
               | some p => p.1
               | none => scs
  let aliasOpt : Option String :=
    match sa with
    | some p => some (String.mk (chStrip p.2))
    | none => none
  if ¬ spec1.contains ':' then .error .registryError
  else
    match rsplitColon spec1 with
    | none => .error .registryError
    | some mpfn =>
      let modulePath := String.mk (chStrip mpfn.1)
      let funcName := String.mk (chStrip mpfn.2)
      match ienv modulePath with
      | none => .error .registryError
      | some m =>
        match alistGet m funcName with
        | none => .error .registryError
        | some f =>
          let regName := aliasOpt.getD funcName
          .ok ({ functions := alistSet r.functions regName f }, regName)

/-- `FunctionRegistry.register_module` (lines 95–147): all public
callables (or the requested subset), optionally prefixed, stored with
**no reserved-name check**. -/
def registerModule (ienv : String → Option PyModule) (r : Registry)
    (moduleName : String) (functionNames : Option (List String))
    (pfx : Option String) : PyM (Registry × List String) :=
  match ienv moduleName with
  | none => .error .registryError
  | some m =>
    let names :=
      match functionNames with
      | some (n :: ns) => n :: ns
      | _ =>
        (m.filter (fun (p : String × ExtFn) => ¬ strStartsWith p.1 "_")).map
          (fun (p : String × ExtFn) => p.1)
    let step := fun (acc : Registry × List String) (nm : String) =>
      match alistGet m nm with
      | none => acc
      | some f =>
        let regName := (pfx.getD "") ++ nm
        (⟨alistSet acc.1.functions regName f⟩, acc.2 ++ [regName])
    .ok (names.foldl step (r, []))

/-- `FunctionRegistry.register_file` (lines 149–214): same shape as
`register_module` over the file environment, with the `.py`-suffix
check; likewise **no reserved-name check**. -/
def registerFile (fenv : String → Option PyModule) (r : Registry)
    (filePath : String) (functionNames : Option (List String))
    (pfx : Option String) : PyM (Registry × List String) :=
  match fenv filePath with
  | none => .error .registryError
  | some m =>
    if ¬ strEndsWith filePath ".py" then .error .registryError
    else
      let names :=
        match functionNames with
        | some (n :: ns) => n :: ns
        | _ =>
        (m.filter (fun (p : String × ExtFn) => ¬ strStartsWith p.1 "_")).map
          (fun (p : String × ExtFn) => p.1)
      let step := fun (acc : Registry × List String) (nm : String) =>
        match alistGet m nm with
        | none => acc
        | some f =>
          let regName := (pfx.getD "") ++ nm
          (⟨alistSet acc.1.functions regName f⟩, acc.2 ++ [regName])
      .ok (names.foldl step (r, []))

/-! ## Lexer (`SchemaMapLexer`, jsonchamp lexer.py)

Token line/column positions are dropped (no claim concerns them). -/

inductive TokT where
  | identifier | stringT | number | boolean | nullT
  | colon | pipe | dot | comma | plus | minus | star | slash
  | doubleQuestion | question | at | tilde
  | equals | notEquals | greater | less | greaterEq | lessEq
  | lbracket | rbracket | lbrace | rbrace | lparen | rparen
  | config | aliases | lookups | functions
  | whenT | elseT | computeT | callT | exprT | nowT | uuidT
  | constantT | repeatT | collectT | filterT | flattenT
  | newline | comment | eof | unknown
deriving Repr, DecidableEq

structure Token where
  ty : TokT
  val : Value
deriving Repr

def directiveTok : String → Option TokT
  | "@config" => some .config
  | "@aliases" => some .aliases
  | "@lookups" => some .lookups
  | "@functions" => some .functions
  | "@when" => some .whenT
  | "@else" => some .elseT
  | "@compute" => some .computeT
  | "@call" => some .callT
  | "@expr" => some .exprT
  | "@now" => some .nowT
  | "@uuid" => some .uuidT
  | "@repeat" => some .repeatT
  | "@collect" => some .collectT
  | _ => none

def keywordTok : String → Option (TokT × Value)
  | "true" => some (.boolean, .bool true)
  | "false" => some (.boolean, .bool false)
  | "null" => some (.nullT, .null)
  | "constant" => some (.constantT, .str "constant")
  | "filter" => some (.filterT, .str "filter")
  | "flatten" => some (.flattenT, .str "flatten")
  | _ => none

def twoCharOp (a b : Char) : Option (TokT × String) :=
  if a = '?' ∧ b = '?' then some (.doubleQuestion, "??")
  else if a = '=' ∧ b = '=' then some (.equals, "==")
  else if a = '!' ∧ b = '=' then some (.notEquals, "!=")
  else if a = '>' ∧ b = '=' then some (.greaterEq, ">=")
  else if a = '<' ∧ b = '=' then some (.lessEq, "<=")
  else none

def singleCharOp (c : Char) : Option TokT :=
  if c = ':' then some .colon
  else if c = '|' then some .pipe
  else if c = '.' then some .dot
  else if c = ',' then some .comma
  else if c = '+' then some .plus
  else if c = '-' then some .minus
  else if c = '*' then some .star
  else if c = '/' then some .slash
  else if c = '?' then some .question
  else if c = '@' then some .at
  else if c = '~' then some .tilde
  else if c = '>' then some .greater
  else if c = '<' then some .less
  else if c = '[' then some .lbracket
  else if c = ']' then some .rbracket
  else if c = '\x7b' then some .lbrace
  else if c = '\x7d' then some .rbrace
  else if c = '(' then some .lparen
  else if c = ')' then some .rparen
  else none

/-- `_read_string` with the `\n \t \\ \quote` escapes; `none` means an
unterminated string (`LexerError`). -/
def readStr (q : Char) : List Char → List Char → Option (String × List Char)
  | [], _ => none
  | c :: rest, acc =>
    if c = q then some (String.mk acc.reverse, rest)
    else if c = '\\' then
      match rest with
      | [] => none
      | e :: rest2 =>
        let ch :=
          if e = 'n' then '\n'
          else if e = 't' then '\t'
          else if e = '\\' then '\\'
          else if e = q then q
          else e
        readStr q rest2 (ch :: acc)
    else readStr q rest (c :: acc)

/-- `_read_number`: optional sign, digits, optional fraction (only when
a digit follows the dot). -/
def readNum (cs : List Char) : Token × List Char :=
  let sp : Bool × List Char :=
    match cs with
    | '-' :: r => (true, r)
    | r => (false, r)
  let neg := sp.1
  let ip := sp.2.takeWhile Char.isDigit
  let cs2 := sp.2.dropWhile Char.isDigit
  match cs2 with
  | '.' :: r =>
    if (r.headD ' ').isDigit then
      let ds := r.takeWhile Char.isDigit
      let r2 := r.dropWhile Char.isDigit
      let ipn := (digitsVal ip).getD 0
      let fpn := (digitsVal ds).getD 0
      let q : Rat := (ipn : Rat) + (fpn : Rat) / ((10 : Rat) ^ ds.length)
      (⟨.number, .float (if neg then -q else q)⟩, r2)
    else
      let n : Int := ((digitsVal ip).getD 0 : Nat)
      (⟨.number, .int (if neg then -n else n)⟩, cs2)
  | _ =>
    let n : Int := ((digitsVal ip).getD 0 : Nat)
    (⟨.number, .int (if neg then -n else n)⟩, cs2)

/-- `SchemaMapLexer.tokenize`: fuelled scan (each step consumes at least
one character, so `length + 1` fuel always suffices); comments are
filtered as in the source, and the stream ends with an EOF token. -/
def lexChars : Nat → List Char → PyM (List Token)
  | 0, _ => .error .recursionError
  | fuel + 1, cs0 =>
    let cs := cs0.dropWhile (fun c => c = ' ' ∨ c = '\t' ∨ c = '\r')
    match cs with
    | [] => .ok [⟨.eof, .null⟩]
    | c :: rest =>
      if c = '#' then lexChars fuel (cs.dropWhile (fun x => x ≠ '\n'))
      else if c = '"' ∨ c = '\'' then
        match readStr c rest [] with
        | none => .error .lexerError
        | some sr => (lexChars fuel sr.2).map (⟨.stringT, .str sr.1⟩ :: ·)
      else if c.isDigit ∨ (c = '-' ∧ ((rest.headD ' ').isDigit)) then
        let tr := readNum cs
        (lexChars fuel tr.2).map (tr.1 :: ·)
      else if c = '@' then
        let word := rest.takeWhile (fun x => x.isAlphanum ∨ x = '_')
        let rest2 := rest.dropWhile (fun x => x.isAlphanum ∨ x = '_')
        let dir := String.mk ('@' :: word)
        match directiveTok dir with
        | some t => (lexChars fuel rest2).map (⟨t, .str dir⟩ :: ·)
        | none => (lexChars fuel rest).map (⟨.at, .str "@"⟩ :: ·)
      else if c.isAlpha ∨ c = '_' then
        let word := cs.takeWhile (fun x => x.isAlphanum ∨ x = '_')
        let rest2 := cs.dropWhile (fun x => x.isAlphanum ∨ x = '_')
        let w := String.mk word
        let tok : Token :=
          match keywordTok w with
          | some tv => ⟨tv.1, tv.2⟩
          | none => ⟨.identifier, .str w⟩
        (lexChars fuel rest2).map (tok :: ·)
      else
        match rest.head?.bind (fun c2 => twoCharOp c c2) with
        | some ts => (lexChars fuel (rest.drop 1)).map (⟨ts.1, .str ts.2⟩ :: ·)
        | none =>
          match singleCharOp c with
          | some t => (lexChars fuel rest).map (⟨t, .str (String.mk [c])⟩ :: ·)
          | none =>
            if c = '\n' then (lexChars fuel rest).map (⟨.newline, .str "\n"⟩ :: ·)
            else (lexChars fuel rest).map (⟨.unknown, .str (String.mk [c])⟩ :: ·)

def tokenize (src : String) : PyM (List Token) :=
  lexChars (src.length + 1) src.toList

/-! ## Parser (`SchemaMapParser`, jsontools parser.py)

The token cursor is the remaining token list; every parse function is
fuelled uniformly (fuel models the Python stack, and also the
non-consuming top-level loop, whose divergence on an unparsable token
becomes fuel exhaustion).  Token positions, and hence error locations,
are not modelled: every `ParserError` is `PyErr.parserError`. -/

def tokStr (t : Token) : String := pyStr t.val

def tokAtEnd : List Token → Bool
  | [] => true
  | t :: _ => t.ty = TokT.eof

def tokCheck (ty : TokT) (ts : List Token) : Bool :=
  match ts with
  | [] => false
  | t :: _ => if t.ty = TokT.eof then false else t.ty = ty

def tokExpect (ty : TokT) (ts : List Token) : PyM (Token × List Token) :=
  if tokCheck ty ts then
    match ts with
    | t :: rest => .ok (t, rest)
    | [] => .error .other
  else .error .parserError

def skipNewlines (ts : List Token) : List Token :=
  ts.dropWhile (fun t => t.ty = TokT.newline)

def appendLast (segs : List String) (sfx : String) : List String :=
  match segs with
  | [] => []
  | _ => segs.dropLast ++ [segs.getLastD "" ++ sfx]

/-- Bracket group inside `_parse_path` (star, number, or minus-number;
anything else leaves the segments untouched). -/
def parsePathBracket (segs : List String) (ts : List Token) :
    PyM (List String × List Token) :=
  if tokCheck .star ts then .ok (appendLast segs "[*]", ts.drop 1)
  else if tokCheck .number ts then
    match ts with
    | t :: r => .ok (appendLast segs ("[" ++ tokStr t ++ "]"), r)
    | [] => .error .other
  else if tokCheck .minus ts then
    match tokExpect .number (ts.drop 1) with
    | .error e => .error e
    | .ok p => .ok (appendLast segs ("[-" ++ tokStr p.1 ++ "]"), p.2)
  else .ok (segs, ts)

/-- Bracket group inside `_parse_target` (no minus branch). -/
def parseTargetBracket (segs : List String) (ts : List Token) :
    PyM (List String × List Token) :=
  if tokCheck .star ts then .ok (appendLast segs "[*]", ts.drop 1)
  else if tokCheck .number ts then
    match ts with
    | t :: r => .ok (appendLast segs ("[" ++ tokStr t ++ "]"), r)
    | [] => .error .other
  else .ok (segs, ts)

mutual
/-- `SchemaMapParser._parse_value` (parser.py lines 359–382). -/
def parseValueTok (fuel : Nat) (ts : List Token) : PyM (Value × List Token) :=
  match fuel with
  | 0 => .error .recursionError
  | fuel + 1 =>
    if tokCheck .stringT ts ∨ tokCheck .number ts ∨ tokCheck .boolean ts then
      match ts with
      | t :: r => .ok (t.val, r)
      | [] => .error .other
    else if tokCheck .nullT ts then .ok (.null, ts.drop 1)
    else if tokCheck .identifier ts then
      match ts with
      | t :: r => .ok (t.val, r)
      | [] => .error .other
    else if tokCheck .at ts then
      let r := ts.drop 1
      if tokCheck .identifier r then
        match r with
        | t :: r2 => .ok (.str ("@" ++ tokStr t), r2)
        | [] => .error .other
      else .ok (.str "@", r)
    else if tokCheck .lbrace ts then
      match parseInlineDict fuel ts with
      | .error e => .error e
      | .ok p => .ok (.obj p.1, p.2)
    else if tokCheck .lbracket ts then
      match parseInlineArray fuel ts with
      | .error e => .error e
      | .ok p => .ok (.arr p.1, p.2)
    else .error .parserError

/-- `_parse_inline_dict` (lines 340–357); keys are stringified with
`str(key)`. -/
def parseInlineDict (fuel : Nat) (ts : List Token) :
    PyM (List (String × Value) × List Token) :=
  match fuel with
  | 0 => .error .recursionError
  | fuel + 1 =>
    match tokExpect .lbrace ts with
    | .error e => .error e
    | .ok p => parseDictItems fuel [] (skipNewlines p.2)

def parseDictItems (fuel : Nat) (acc : List (String × Value))
    (ts : List Token) : PyM (List (String × Value) × List Token) :=
  match fuel with
  | 0 => .error .recursionError
  | fuel + 1 =>
    if tokCheck .rbrace ts ∨ tokAtEnd ts then
      match tokExpect .rbrace ts with
      | .error e => .error e
      | .ok p => .ok (acc, p.2)
    else
      match parseValueTok fuel ts with
      | .error e => .error e
      | .ok (key, ts) =>
        match tokExpect .colon ts with
        | .error e => .error e
        | .ok p =>
          match parseValueTok fuel p.2 with
          | .error e => .error e
          | .ok (v, ts) =>
            let acc := objSet acc (pyStr key) v
            let ts := if tokCheck .comma ts then ts.drop 1 else ts
            parseDictItems fuel acc (skipNewlines ts)

/-- `_parse_inline_array` (lines 384–395). -/
def parseInlineArray (fuel : Nat) (ts : List Token) :
    PyM (List Value × List Token) :=
  match fuel with
  | 0 => .error .recursionError
  | fuel + 1 =>
    match tokExpect .lbracket ts with
    | .error e => .error e
    | .ok p => parseArrayItems fuel [] p.2

def parseArrayItems (fuel : Nat) (acc : List Value) (ts : List Token) :
    PyM (List Value × List Token) :=
  match fuel with
  | 0 => .error .recursionError
  | fuel + 1 =>
    if tokCheck .rbracket ts ∨ tokAtEnd ts then
      match tokExpect .rbracket ts with
      | .error e => .error e
      | .ok p => .ok (acc, p.2)
    else
      match parseValueTok fuel ts with
      | .error e => .error e
      | .ok (v, ts) =>
        let ts := if tokCheck .comma ts then ts.drop 1 else ts
        parseArrayItems fuel (acc ++ [v]) ts
end

mutual
/-- `_parse_transform` (lines 611–640): optional `@` alias marker, a
name (identifier or the `constant` keyword), optional argument list;
returns `none` (without error) when no name follows. -/
def parseTransform (fuel : Nat) (ts : List Token) :
    PyM (Option TransformAST × List Token) :=
  match fuel with
  | 0 => .error .recursionError
  | fuel + 1 =>
    let pAl : Bool × List Token :=
      if tokCheck .at ts then (true, ts.drop 1) else (false, ts)
    let isAlias := pAl.1
    let ts := pAl.2
    if ¬ (tokCheck .identifier ts ∨ tokCheck .constantT ts) then .ok (none, ts)
    else
      match ts with
      | [] => .error .other
      | t :: ts1 =>
        let name := tokStr t
        if tokCheck .lparen ts1 then
          match parseTransformArgs fuel [] (ts1.drop 1) with
          | .error e => .error e
          | .ok (args, ts2) =>
            match tokExpect .rparen ts2 with
            | .error e => .error e
            | .ok p => .ok (some ⟨name, args, isAlias⟩, p.2)
        else .ok (some ⟨name, [], isAlias⟩, ts1)

def parseTransformArgs (fuel : Nat) (acc : List Value) (ts : List Token) :
    PyM (List Value × List Token) :=
  match fuel with
  | 0 => .error .recursionError
  | fuel + 1 =>
    if tokCheck .rparen ts ∨ tokAtEnd ts then .ok (acc, ts)
    else
      let argRes : PyM (Value × List Token) :=
        if tokCheck .at ts then
          let r := ts.drop 1
          if tokCheck .identifier r then
            match r with
            | t :: r2 => .ok (.str ("@" ++ tokStr t), r2)
            | [] => .error .other
          else .ok (.str "@", r)
        else parseValueTok fuel ts
      match argRes with
      | .error e => .error e
      | .ok (arg, ts) =>
        let ts := if tokCheck .comma ts then ts.drop 1 else ts
        parseTransformArgs fuel (acc ++ [arg]) ts

/-- `_parse_transform_chain` (pipe-separated, lines 583–593). -/
def parseTransformChain (fuel : Nat) (acc : List TransformAST)
    (ts : List Token) : PyM (List TransformAST × List Token) :=
  match fuel with
  | 0 => .error .recursionError
  | fuel + 1 =>
    if tokCheck .pipe ts then
      match parseTransform fuel (ts.drop 1) with
      | .error e => .error e
      | .ok (t?, ts) =>
        let acc := match t? with | some t => acc ++ [t] | none => acc
        parseTransformChain fuel acc ts
    else .ok (acc, ts)

/-- `_parse_transform_chain_direct` (lines 595–609). -/
def parseTransformChainDirect (fuel : Nat) (ts : List Token) :
    PyM (List TransformAST × List Token) :=
  match fuel with
  | 0 => .error .recursionError
  | fuel + 1 =>
    match parseTransform fuel ts with
    | .error e => .error e
    | .ok (t?, ts) =>
      let acc := match t? with | some t => [t] | none => []
      parseTransformChain fuel acc ts
end

mutual
/-- `_parse_config` (lines 236–251). -/
def parseConfigItems (fuel : Nat) (acc : List (String × Value))
    (ts : List Token) : PyM (List (String × Value) × List Token) :=
  match fuel with
  | 0 => .error .recursionError
  | fuel + 1 =>
    if tokCheck .rbrace ts ∨ tokAtEnd ts then
      match tokExpect .rbrace ts with
      | .error e => .error e
      | .ok p => .ok (acc, p.2)
    else
      match tokExpect .identifier ts with
      | .error e => .error e
      | .ok (nameTok, ts) =>
        match tokExpect .colon ts with
        | .error e => .error e
        | .ok p =>
          match parseValueTok fuel p.2 with
          | .error e => .error e
          | .ok (v, ts) =>
            parseConfigItems fuel (objSet acc (tokStr nameTok) v)
              (skipNewlines ts)

def parseConfig (fuel : Nat) (ts : List Token) :
    PyM (List (String × Value) × List Token) :=
  match fuel with
  | 0 => .error .recursionError
  | fuel + 1 =>
    match tokExpect .lbrace (ts.drop 1) with
    | .error e => .error e
    | .ok p => parseConfigItems fuel [] (skipNewlines p.2)

/-- Parameter list of an alias (`while not RPAREN` with no end check:
running off the stream raises as `_expect` fails). -/
def parseAliasParams (fuel : Nat) (acc : List String) (ts : List Token) :
    PyM (List String × List Token) :=
  match fuel with
  | 0 => .error .recursionError
  | fuel + 1 =>
    if tokCheck .rparen ts then .ok (acc, ts)
    else
      match tokExpect .identifier ts with
      | .error e => .error e
      | .ok (p, ts) =>
        let ts := if tokCheck .comma ts then ts.drop 1 else ts
        parseAliasParams fuel (acc ++ [tokStr p]) ts

/-- `_parse_aliases` (lines 253–279). -/
def parseAliasItems (fuel : Nat) (acc : List (String × AliasDef))
    (ts : List Token) : PyM (List (String × AliasDef) × List Token) :=
  match fuel with
  | 0 => .error .recursionError
  | fuel + 1 =>
    if tokCheck .rbrace ts ∨ tokAtEnd ts then
      match tokExpect .rbrace ts with
      | .error e => .error e
      | .ok p => .ok (acc, p.2)
    else
      match tokExpect .identifier ts with
      | .error e => .error e
      | .ok (nameTok, ts) =>
        let paramsRes : PyM (List String × List Token) :=
          if tokCheck .lparen ts then
            match parseAliasParams fuel [] (ts.drop 1) with
            | .error e => .error e
            | .ok (ps, ts1) =>
              match tokExpect .rparen ts1 with
              | .error e => .error e
              | .ok p => .ok (ps, p.2)
          else .ok ([], ts)
        match paramsRes with
        | .error e => .error e
        | .ok (params, ts) =>
          match tokExpect .colon ts with
          | .error e => .error e
          | .ok p =>
            match parseTransformChainDirect fuel p.2 with
            | .error e => .error e
            | .ok (chain, ts) =>
              let nm := tokStr nameTok
              parseAliasItems fuel (alistSet acc nm ⟨nm, chain, params⟩)
                (skipNewlines ts)

def parseAliases (fuel : Nat) (ts : List Token) :
    PyM (List (String × AliasDef) × List Token) :=
  match fuel with
  | 0 => .error .recursionError
  | fuel + 1 =>
    match tokExpect .lbrace (ts.drop 1) with
    | .error e => .error e
    | .ok p => parseAliasItems fuel [] (skipNewlines p.2)

/-- `_parse_lookups` (lines 281–303). -/
def parseLookupItems (fuel : Nat) (acc : List (String × LookupDef))
    (ts : List Token) : PyM (List (String × LookupDef) × List Token) :=
  match fuel with
  | 0 => .error .recursionError
  | fuel + 1 =>
    if tokCheck .rbrace ts ∨ tokAtEnd ts then
      match tokExpect .rbrace ts with
      | .error e => .error e
      | .ok p => .ok (acc, p.2)
    else
      match tokExpect .identifier ts with
      | .error e => .error e
      | .ok (nameTok, ts) =>
        match tokExpect .colon ts with
        | .error e => .error e
        | .ok p =>
          let ts := p.2
          let srcRes : PyM ((String ⊕ List (String × Value)) × List Token) :=
            if tokCheck .stringT ts then
              match ts with
              | t :: r => .ok (.inl (tokStr t), r)
              | [] => .error .other
            else if tokCheck .lbrace ts then
              match parseInlineDict fuel ts with
              | .error e => .error e
              | .ok (kvs, r) => .ok (.inr kvs, r)
            else .error .parserError
          match srcRes with
          | .error e => .error e
          | .ok (src, ts) =>
            let nm := tokStr nameTok
            parseLookupItems fuel (alistSet acc nm ⟨nm, src⟩) (skipNewlines ts)

def parseLookups (fuel : Nat) (ts : List Token) :
    PyM (List (String × LookupDef) × List Token) :=
  match fuel with
  | 0 => .error .recursionError
  | fuel + 1 =>
    match tokExpect .lbrace (ts.drop 1) with
    | .error e => .error e
    | .ok p => parseLookupItems fuel [] (skipNewlines p.2)

/-- `_parse_functions` (lines 305–338): the spec string's optional
`" as alias"` suffix is split off at parse time. -/
def parseFunctionItems (fuel : Nat) (acc : List (String × FunctionDef))
    (ts : List Token) : PyM (List (String × FunctionDef) × List Token) :=
  match fuel with
  | 0 => .error .recursionError
  | fuel + 1 =>
    if tokCheck .rbrace ts ∨ tokAtEnd ts then
      match tokExpect .rbrace ts with
      | .error e => .error e
      | .ok p => .ok (acc, p.2)
    else
      match tokExpect .identifier ts with
      | .error e => .error e
      | .ok (nameTok, ts) =>
        match tokExpect .colon ts with
        | .error e => .error e
        | .ok p =>
          match tokExpect .stringT p.2 with
          | .error e => .error e
          | .ok (specTok, ts) =>
            let spec0 := tokStr specTok
            let sa := splitFirstSub (String.toList " as ") spec0.toList
            let fd : FunctionDef :=
              match sa with
              | some pq =>
                ⟨tokStr nameTok, String.mk (chStrip pq.1),
                 some (String.mk (chStrip pq.2))⟩
              | none => ⟨tokStr nameTok, spec0, none⟩
            parseFunctionItems fuel (alistSet acc (tokStr nameTok) fd)
              (skipNewlines ts)

def parseFunctions (fuel : Nat) (ts : List Token) :
    PyM (List (String × FunctionDef) × List Token) :=
  match fuel with
  | 0 => .error .recursionError
  | fuel + 1 =>
    match tokExpect .lbrace (ts.drop 1) with
    | .error e => .error e
    | .ok p => parseFunctionItems fuel [] (skipNewlines p.2)
end

mutual
/-- The segment/bracket loop of `_parse_path` (lines 487–518); note
that after a bracket group the loop continues only through a dot. -/
def parsePathLoop (fuel : Nat) (segs : List String) (ts : List Token) :
    PyM (List String × List Token) :=
  match fuel with
  | 0 => .error .recursionError
  | fuel + 1 =>
    let brRes : PyM (List String × List Token) :=
      if tokCheck .lbracket ts then
        match parsePathBracket segs (ts.drop 1) with
        | .error e => .error e
        | .ok (s2, ts2) =>
          match tokExpect .rbracket ts2 with
          | .error e => .error e
          | .ok p => .ok (s2, p.2)
      else .ok (segs, ts)
    match brRes with
    | .error e => .error e
    | .ok (segs, ts) =>
      if tokCheck .dot ts then
        let ts1 := ts.drop 1
        if tokCheck .identifier ts1 then
          match ts1 with
          | t :: r => parsePathLoop fuel (segs ++ [tokStr t]) r
          | [] => .error .other
        else if tokCheck .star ts1 then
          parsePathLoop fuel (segs ++ ["*"]) (ts1.drop 1)
        else .ok (segs, ts1)
      else .ok (segs, ts)

/-- `_parse_path` (lines 472–525). -/
def parsePathP (fuel : Nat) (ts : List Token) :
    PyM (SourcePath × List Token) :=
  match fuel with
  | 0 => .error .recursionError
  | fuel + 1 =>
    let p0 : List String × List Token :=
      if tokCheck .dot ts then ([""], ts.drop 1) else ([], ts)
    let p1 : List String × List Token :=
      if tokCheck .identifier p0.2 then
        match p0.2 with
        | t :: r => (p0.1 ++ [tokStr t], r)
        | [] => (p0.1, p0.2)
      else p0
    match parsePathLoop fuel p1.1 p1.2 with
    | .error e => .error e
    | .ok (segs, ts) =>
      if tokCheck .question ts then .ok (⟨segs, true⟩, ts.drop 1)
      else .ok (⟨segs, false⟩, ts)

/-- `_parse_merge_expression` (lines 527–541): the operator of the first
join is kept for the whole expression. -/
def parseMergeLoop (fuel : Nat) (acc : List (SourcePath ⊕ String))
    (ts : List Token) : PyM (List (SourcePath ⊕ String) × List Token) :=
  match fuel with
  | 0 => .error .recursionError
  | fuel + 1 =>
    if tokCheck .plus ts ∨ tokCheck .doubleQuestion ts then
      let ts := ts.drop 1
      if tokCheck .stringT ts then
        match ts with
        | t :: r => parseMergeLoop fuel (acc ++ [.inr (tokStr t)]) r
        | [] => .error .other
      else if tokCheck .identifier ts ∨ tokCheck .dot ts then
        match parsePathP fuel ts with
        | .error e => .error e
        | .ok (p, ts) => parseMergeLoop fuel (acc ++ [.inl p]) ts
      else .error .parserError
    else .ok (acc, ts)

/-- `_parse_expression_content` (lines 642–674): rebuild the raw
expression text; the closing parenthesis at depth zero is left for the
caller's `_expect`. -/
def parseExprContent (fuel : Nat) (depth : Nat) (acc : List String)
    (ts : List Token) : PyM (String × List Token) :=
  match fuel with
  | 0 => .error .recursionError
  | fuel + 1 =>
    if depth = 0 ∨ tokAtEnd ts then .ok (String.join acc, ts)
    else if tokCheck .lparen ts then
      parseExprContent fuel (depth + 1) (acc ++ ["("]) (ts.drop 1)
    else if tokCheck .rparen ts then
      if depth - 1 > 0 then
        parseExprContent fuel (depth - 1) (acc ++ [")"]) (ts.drop 1)
      else .ok (String.join acc, ts)
    else
      match ts with
      | [] => .ok (String.join acc, ts)
      | t :: rest =>
        let piece :=
          match t.ty with
          | .stringT => "\"" ++ pyStr t.val ++ "\""
          | .dot => "."
          | .lbracket => "["
          | .rbracket => "]"
          | .star => "*"
          | .comma => ","
          | _ => pyStr t.val
        parseExprContent fuel depth (acc ++ [piece]) rest

/-- `_parse_source` (lines 415–470). -/
def parseSource (fuel : Nat) (ts : List Token) :
    PyM (Option SrcExpr × List Token) :=
  match fuel with
  | 0 => .error .recursionError
  | fuel + 1 =>
    let computeLike := fun (ty : String) (ts : List Token) =>
      match tokExpect .lparen (ts.drop 1) with
      | .error e => (.error e : PyM (Option SrcExpr × List Token))
      | .ok p =>
        match parseExprContent fuel 1 [] p.2 with
        | .error e => .error e
        | .ok (content, ts1) =>
          match tokExpect .rparen ts1 with
          | .error e => .error e
          | .ok p2 => .ok (some (.compute content ty), p2.2)
    if tokCheck .computeT ts then computeLike "compute" ts
    else if tokCheck .callT ts then computeLike "call" ts
    else if tokCheck .exprT ts then computeLike "expr" ts
    else if tokCheck .nowT ts then .ok (some (.compute "" "now"), ts.drop 1)
    else if tokCheck .uuidT ts then .ok (some (.compute "" "uuid"), ts.drop 1)
    else if tokCheck .stringT ts ∨ tokCheck .number ts then
      match ts with
      | t :: r => .ok (some (.const t.val), r)
      | [] => .error .other
    else if tokCheck .identifier ts ∨ tokCheck .dot ts then
      match parsePathP fuel ts with
      | .error e => .error e
      | .ok (p, ts) =>
        if tokCheck .plus ts then
          match parseMergeLoop fuel [.inl p] ts with
          | .error e => .error e
          | .ok (parts, ts) => .ok (some (.merge parts "+"), ts)
        else if tokCheck .doubleQuestion ts then
          match parseMergeLoop fuel [.inl p] ts with
          | .error e => .error e
          | .ok (parts, ts) => .ok (some (.merge parts "??"), ts)
        else .ok (some (.path p), ts)
    else .ok (none, ts)

/-- The segment loop of `_parse_target` (lines 556–579). -/
def parseTargetLoop (fuel : Nat) (segs : List String) (ts : List Token) :
    PyM (List String × List Token) :=
  match fuel with
  | 0 => .error .recursionError
  | fuel + 1 =>
    let brRes : PyM (List String × List Token) :=
      if tokCheck .lbracket ts then
        match parseTargetBracket segs (ts.drop 1) with
        | .error e => .error e
        | .ok (s2, ts2) =>
          match tokExpect .rbracket ts2 with
          | .error e => .error e
          | .ok p => .ok (s2, p.2)
      else .ok (segs, ts)
    match brRes with
    | .error e => .error e
    | .ok (segs, ts) =>
      if tokCheck .dot ts then
        let ts1 := ts.drop 1
        if tokCheck .identifier ts1 then
          match ts1 with
          | t :: r => parseTargetLoop fuel (segs ++ [tokStr t]) r
          | [] => .error .other
        else .ok (segs, ts1)
      else .ok (segs, ts)

/-- `_parse_target` (lines 543–581). -/
def parseTarget (fuel : Nat) (ts : List Token) :
    PyM (TgtExpr × List Token) :=
  match fuel with
  | 0 => .error .recursionError
  | fuel + 1 =>
    if tokCheck .tilde ts then .ok (.skipT, ts.drop 1)
    else
      let p0 : List String × List Token :=
        if tokCheck .identifier ts then
          match ts with
          | t :: r => ([tokStr t], r)
          | [] => ([], ts)
        else ([], ts)
      match parseTargetLoop fuel p0.1 p0.2 with
      | .error e => .error e
      | .ok (segs, ts) => .ok (.path ⟨segs⟩, ts)

/-- `_parse_mapping` (lines 397–413). -/
def parseMapping (fuel : Nat) (ts : List Token) :
    PyM (Option MapItem × List Token) :=
  match fuel with
  | 0 => .error .recursionError
  | fuel + 1 =>
    match parseSource fuel ts with
    | .error e => .error e
    | .ok (none, ts) => .ok (none, ts)
    | .ok (some src, ts) =>
      match tokExpect .colon ts with
      | .error e => .error e
      | .ok p =>
        match parseTarget fuel p.2 with
        | .error e => .error e
        | .ok (tgt, ts) =>
          let chainRes : PyM (List TransformAST × List Token) :=
            if tokCheck .pipe ts then parseTransformChain fuel [] ts
            else .ok ([], ts)
          match chainRes with
          | .error e => .error e
          | .ok (trs, ts) => .ok (some (.mapping src tgt trs 0), ts)

/-- `_parse_block_mappings` (lines 723–734). -/
def parseBlockItems (fuel : Nat) (acc : List MapItem) (ts : List Token) :
    PyM (List MapItem × List Token) :=
  match fuel with
  | 0 => .error .recursionError
  | fuel + 1 =>
    if tokCheck .rbrace ts ∨ tokAtEnd ts then .ok (acc, ts)
    else
      match parseMapping fuel ts with
      | .error e => .error e
      | .ok (m?, ts) =>
        let acc := match m? with | some m => acc ++ [m] | none => acc
        parseBlockItems fuel acc (skipNewlines ts)

def parseBlockMappings (fuel : Nat) (ts : List Token) :
    PyM (List MapItem × List Token) :=
  match fuel with
  | 0 => .error .recursionError
  | fuel + 1 => parseBlockItems fuel [] (skipNewlines ts)

/-- `_parse_conditional` (lines 676–704): only `==`, `!=`, `>` and `<`
are recognised; any other comparison token falls to the `==` default
and then trips `_parse_value`. -/
def parseConditional (fuel : Nat) (ts : List Token) :
    PyM (MapItem × List Token) :=
  match fuel with
  | 0 => .error .recursionError
  | fuel + 1 =>
    match tokExpect .identifier (ts.drop 1) with
    | .error e => .error e
    | .ok (fieldTok, ts) =>
      let po : String × List Token :=
        if tokCheck .equals ts then ("==", ts.drop 1)
        else if tokCheck .notEquals ts then ("!=", ts.drop 1)
        else if tokCheck .greater ts then (">", ts.drop 1)
        else if tokCheck .less ts then ("<", ts.drop 1)
        else ("==", ts)
      match parseValueTok fuel po.2 with
      | .error e => .error e
      | .ok (v, ts) =>
        match tokExpect .lbrace ts with
        | .error e => .error e
        | .ok p =>
          match parseBlockMappings fuel p.2 with
          | .error e => .error e
          | .ok (ms, ts) =>
            match tokExpect .rbrace ts with
            | .error e => .error e
            | .ok p2 =>
              .ok (.condBlock (some ⟨tokStr fieldTok, po.1, v⟩) ms, p2.2)

/-- `_parse_else_block` (lines 706–713). -/
def parseElseBlock (fuel : Nat) (ts : List Token) :
    PyM (MapItem × List Token) :=
  match fuel with
  | 0 => .error .recursionError
  | fuel + 1 =>
    match tokExpect .lbrace (ts.drop 1) with
    | .error e => .error e
    | .ok p =>
      match parseBlockMappings fuel p.2 with
      | .error e => .error e
      | .ok (ms, ts) =>
        match tokExpect .rbrace ts with
        | .error e => .error e
        | .ok p2 => .ok (.condBlock none ms, p2.2)

/-- `_parse_nested_block` (lines 715–721). -/
def parseNestedBlock (fuel : Nat) (ts : List Token) :
    PyM (MapItem × List Token) :=
  match fuel with
  | 0 => .error .recursionError
  | fuel + 1 =>
    match tokExpect .lbrace ts with
    | .error e => .error e
    | .ok p =>
      match parseBlockMappings fuel p.2 with
      | .error e => .error e
      | .ok (ms, ts) =>
        match tokExpect .rbrace ts with
        | .error e => .error e
        | .ok p2 => .ok (.nested ms, p2.2)

/-- The dispatch loop of `SchemaMapParser.parse` (lines 172–207). -/
def parseTopItems (fuel : Nat) (mf : MappingFile) (ts : List Token) :
    PyM MappingFile :=
  match fuel with
  | 0 => .error .recursionError
  | fuel + 1 =>
    let ts := skipNewlines ts
    if tokAtEnd ts then .ok mf
    else if tokCheck .config ts then
      match parseConfig fuel ts with
      | .error e => .error e
      | .ok (cfg, ts) => parseTopItems fuel { mf with config := cfg } ts
    else if tokCheck .aliases ts then
      match parseAliases fuel ts with
      | .error e => .error e
      | .ok (al, ts) => parseTopItems fuel { mf with aliases := al } ts
    else if tokCheck .lookups ts then
      match parseLookups fuel ts with
      | .error e => .error e
      | .ok (lk, ts) => parseTopItems fuel { mf with lookups := lk } ts
    else if tokCheck .functions ts then
      match parseFunctions fuel ts with
      | .error e => .error e
      | .ok (fns, ts) => parseTopItems fuel { mf with functions := fns } ts
    else if tokCheck .whenT ts then
      match parseConditional fuel ts with
      | .error e => .error e
      | .ok (cb, ts) =>
        parseTopItems fuel { mf with mappings := mf.mappings ++ [cb] } ts
    else if tokCheck .elseT ts then
      match parseElseBlock fuel ts with
      | .error e => .error e
      | .ok (eb, ts) =>
        parseTopItems fuel { mf with mappings := mf.mappings ++ [eb] } ts
    else if tokCheck .lbrace ts then
      match parseNestedBlock fuel ts with
      | .error e => .error e
      | .ok (nb, ts) =>
        parseTopItems fuel { mf with mappings := mf.mappings ++ [nb] } ts
    else if tokCheck .newline ts then parseTopItems fuel mf (ts.drop 1)
    else
      match parseMapping fuel ts with
      | .error e => .error e
      | .ok (m?, ts) =>
        let mf :=
          match m? with
          | some m => { mf with mappings := mf.mappings ++ [m] }
          | none => mf
        parseTopItems fuel mf ts
end

def parseTokens (fuel : Nat) (toks : List Token) : PyM MappingFile :=
  parseTopItems fuel ⟨[], [], [], [], []⟩ toks

/-- `SchemaMapParser.parse`: tokenize, then run the dispatch loop; the
fuel bound covers every call chain the token stream can drive. -/
def parseSmap (src : String) : PyM MappingFile :=
  match tokenize src with
  | .error e => .error e
  | .ok toks => parseTokens (10 * toks.length + 100) toks

/-! ## Predicates and fixtures used by the theorems -/

mutual
/-- No `Null` appears anywhere in the value: recursively, no object field
holds null and no array element is null (and the value itself is not
null). -/
def noNulls : Value → Bool
  | .obj kvs => noNullsFields kvs
  | .arr xs => noNullsList xs
  | .null => false
  | _ => true

def noNullsFields : List (String × Value) → Bool
  | [] => true
  | (_, v) :: rest => noNulls v && noNullsFields rest

def noNullsList : List Value → Bool
  | [] => true
  | v :: rest => noNulls v && noNullsList rest
end

/-- A path segment for which the round-trip law can hold: a field that is
not the wildcard and does not look like an embedded index, or a
non-negative array index. -/
def segOk : PSeg → Bool
  | .fld s => s ≠ "*" && (embIdx s).isNone
  | .idx i => decide (0 ≤ i)

/-- No two adjacent integer segments (writing through two consecutive
indices dereferences a freshly created dict as a list). -/
def noConsecIdx : List PSeg → Bool
  | PSeg.idx _ :: PSeg.idx _ :: _ => false
  | _ :: rest => noConsecIdx rest
  | [] => true

/-- The container `set_value` would create for a path starting with the
given segments (a dict, or a list before an index). -/
def startVal : List PSeg → Value
  | PSeg.idx _ :: _ => .arr []
  | _ => .obj []

/-- A plain path character: no dot, bracket, question mark or star. -/
def plainChar (c : Char) : Bool := c ≠ '.' && c ≠ '[' && c ≠ '?' && c ≠ '*'

def plainSeg (s : String) : Bool := s ≠ "" && s.toList.all plainChar

/-- The common fragment of the two backends used for the equivalence
theorem: a transform-free, non-optional, single-segment path-to-path
mapping over plain segments. -/
def plainMapItem : MapItem → Bool
  | .mapping (.path ⟨[s], false⟩) (.path ⟨[t]⟩) [] _ => plainSeg s && plainSeg t
  | _ => false

/-- Wildcard read of one element as the evaluator performs it: a dict is
read at the suffix `x`, any other element passes through raw. -/
def c3read : Value → Value
  | .obj kvs => (objGet kvs "x").getD .null
  | v => v

/-- The conditional-block mapping file `when status OP 5` with body
`flag : out`. -/
def c8mf (op : String) : MappingFile :=
  ⟨[], [], [], [],
    [.condBlock (some ⟨"status", op, .int 5⟩)
      [.mapping (.path ⟨["flag"], false⟩) (.path ⟨["out"]⟩) [] 0]]⟩

/-- The intended integer comparison of the four parser-supported
operators. -/
def c8holds (op : String) (i : Int) : Bool :=
  if op = "==" then decide (i = 5)
  else if op = "!=" then decide (i ≠ 5)
  else if op = ">" then decide (5 < i)
  else decide (i < 5)

/-- The optional-missing mapping file `a.b? : c` on which the two
backends diverge. -/
def c1mfX : MappingFile :=
  ⟨[], [], [], [],
    [.mapping (.path ⟨["a", "b"], true⟩) (.path ⟨["c"]⟩) [] 0]⟩

/-- A one-mapping plain file `a : b` instantiating the equivalence
fragment. -/
def c1mfW : MappingFile :=
  ⟨[], [], [], [],
    [.mapping (.path ⟨["a"], false⟩) (.path ⟨["b"]⟩) [] 0]⟩

/-! ## Theorems

Each claim of the specification is settled by one theorem below;
counterexample and witness theorems accompany the corrected and
hypothesis-bearing ones. -/

set_option maxHeartbeats 2000000 in
/-- Claim C10: an at-else conditional block (condition `none`) executes its
body unconditionally — for every context, record and accumulated state the
evaluator runs the body exactly as an unconditioned block; a bare at-else
with no preceding at-when is accepted by the parser; and a matching at-when
does not suppress a following at-else (both bodies run). -/
theorem c10_else_unconditional :
    (∀ (fuel : Nat) (ctx : EvCtx) (body : List MapItem) (data : Value)
       (ts : TState),
       applyMappingItem fuel ctx (.condBlock none body) data ts =
         applyItems fuel ctx body data ts) ∧
    parseSmap "@else \x7b flag : out \x7d" =
      .ok ⟨[], [], [], [],
        [.condBlock none
          [.mapping (.path ⟨["flag"], false⟩) (.path ⟨["out"]⟩) [] 0]]⟩ ∧
    evTransform 2
      ⟨[], [], [], [],
        [.condBlock none
          [.mapping (.path ⟨["flag"], false⟩) (.path ⟨["out"]⟩) [] 0]]⟩
      (fun _ => none) "T" "U" (.obj [("flag", .int 1)]) =
      .ok (.obj [("out", .int 1)]) ∧
    evTransform 2
      ⟨[], [], [], [],
        [.condBlock (some ⟨"status", "==", .str "A"⟩)
          [.mapping (.path ⟨["x"], false⟩) (.path ⟨["y"]⟩) [] 0],
         .condBlock none
          [.mapping (.path ⟨["z"], false⟩) (.path ⟨["w"]⟩) [] 0]]⟩
      (fun _ => none) "T" "U"
      (.obj [("status", .str "A"), ("x", .int 1), ("z", .int 2)]) =
      .ok (.obj [("y", .int 1), ("w", .int 2)]) :=
  ⟨fun _ _ _ _ _ => rfl, rfl, rfl, rfl⟩

/-- Claim C9 (corrected): `FunctionRegistry.register` does reject every
reserved name with a `FunctionRegistryError`, storing nothing. -/
theorem c9_register_reserved (r : Registry) (name : String) (f : ExtFn)
    (h : name ∈ reservedNames) :
    Registry.register r name f = .error .registryError := by
  have hne : ¬ name = "" := by
    intro he
    subst he
    simp [reservedNames] at h
  simp [Registry.register, hne, h]

theorem c9_register_reserved_witness :
    "sum" ∈ reservedNames ∧
      Registry.register ⟨[]⟩ "sum" (fun _ => .ok .null) =
        .error .registryError :=
  ⟨by decide, c9_register_reserved ⟨[]⟩ "sum" (fun _ => .ok .null) (by decide)⟩

/-- Claim C9 counterexample: `register_from_spec` performs no reserved-name
check — an `as sum` alias registers a function under the reserved name
`sum` successfully. -/
theorem c9_register_reserved_counterexample :
    ∃ res : Registry × String,
      registerFromSpec
        (fun m => if m = "mymod" then some [("f", fun _ => .ok .null)] else none)
        ⟨[]⟩ "mymod:f as sum" = .ok res ∧
      res.1.hasFunction "sum" = true ∧ res.2 = "sum" :=
  ⟨_, rfl, rfl, rfl⟩

/-- Claim C7 counterexample: the spec's strip-and-uppercase test over
the set Y, YES, TRUE, 1, T disagrees with the source: the string on maps
to true although ON is not in the spec's set; the padded string true
with spaces maps to false although stripping would accept it; and the
integer 2 maps to true although the spec predicts false for every
non-listed input. -/
theorem c7_to_bool_counterexample :
    Bf.to_bool (.str "on") = true ∧
    ¬ strUpper (pyStrip "on") ∈ ["Y", "YES", "TRUE", "1", "T"] ∧
    Bf.to_bool (.str " true ") = false ∧
    strUpper (pyStrip " true ") ∈ ["Y", "YES", "TRUE", "1", "T"] ∧
    Bf.to_bool (.int 2) = true :=
  ⟨rfl, by decide, rfl, by decide, rfl⟩

/-- Claim C7 (corrected): the builtin `to_bool`, as dispatched by
`apply_transform` when no external function shadows the name, returns
`None ↦ False`, `bool ↦ itself`, a string iff its lowercased form (no
stripping) is one of true, yes, y, 1, on, and otherwise Python
truthiness (so nonzero numbers map to true). -/
theorem c7_to_bool_amended (ctx : EvCtx) (st : Bool) (v : Value) (fuel : Nat)
    (hext : ctx.ext "to_bool" = none) :
    applyTransform (fuel + 1) ctx st v "to_bool" [] false =
      .ok (.bool (Bf.to_bool v), st) ∧
    Bf.to_bool .null = false ∧
    (∀ b, Bf.to_bool (.bool b) = b) ∧
    (∀ s, Bf.to_bool (.str s) = true ↔
      strLower s ∈ ["true", "yes", "y", "1", "on"]) ∧
    (∀ i : Int, Bf.to_bool (.int i) = true ↔ i ≠ 0) := by
  refine ⟨?_, rfl, fun b => rfl, fun s => ?_, fun i => ?_⟩
  · have h1 : applyTransform (fuel + 1) ctx st v "to_bool" [] false =
        (match ctx.ext "to_bool" with
         | some f =>
           (match f (v :: []) with
            | .ok w => (.ok (w, st) : PyM (Value × Bool))
            | .error _ => .error .externalFunctionError)
         | none => .ok (.bool (Bf.to_bool v), st)) := rfl
    rw [h1, hext]
  · simp [Bf.to_bool]
  · simp [Bf.to_bool, pyTruthy]

theorem c7_to_bool_amended_witness :
    applyTransform 1 ⟨[], [], fun _ => none, [], "N", "U"⟩ false (.str "on")
        "to_bool" [] false = .ok (.bool true, false) := by
  have h := c7_to_bool_amended ⟨[], [], fun _ => none, [], "N", "U"⟩ false
    (.str "on") 0 rfl
  exact h.1.trans (by rfl)

/-- Claim C6 counterexample: `lookup` can raise — an unhashable input
value (a list) makes the `value in lookup_table` membership probe raise
`TypeError`, which `apply_transform` does not catch. -/
theorem c6_lookup_counterexample :
    applyTransform 1
      ⟨[("status", .obj [("A", .str "ACTIVE")])], [], fun _ => none, [],
        "N", "U"⟩
      false (.arr []) "lookup" [.str "@status"] false = .error .typeError :=
  rfl

/-- Claim C6 (corrected): for hashable (non-list, non-dict) inputs the
`lookup` transform returns the mapped value verbatim when the input
equals a key of the named table, and the input unchanged in every other
case (key absent, or table absent), with no error and no default
substitution. -/
theorem c6_lookup_amended (ctx : EvCtx) (st : Bool) (v : Value) (ref : String)
    (rest : List Value) (fuel : Nat)
    (hv : match v with | .arr _ => False | .obj _ => False | _ => True) :
    (alistGet ctx.lookups (if strStartsWith ref "@" then ref.drop 1 else ref)
        = none →
      applyTransform (fuel + 1) ctx st v "lookup" (.str ref :: rest) false =
        .ok (v, st)) ∧
    (∀ kvs,
      alistGet ctx.lookups (if strStartsWith ref "@" then ref.drop 1 else ref)
          = some (.obj kvs) →
      (∀ p, kvs.find? (fun q => pyEq (.str q.1) v) = some p →
        applyTransform (fuel + 1) ctx st v "lookup" (.str ref :: rest) false =
          .ok (p.2, st)) ∧
      (kvs.find? (fun q => pyEq (.str q.1) v) = none →
        applyTransform (fuel + 1) ctx st v "lookup" (.str ref :: rest) false =
          .ok (v, st))) := by
  constructor
  · intro h
    cases v <;> simp at hv <;> simp [applyTransform, h]
  · intro kvs h
    constructor
    · intro p hp
      cases v <;> simp at hv <;> simp [applyTransform, h, hp]
    · intro hn
      cases v <;> simp at hv <;> simp [applyTransform, h, hn]

theorem c6_lookup_amended_witness :
    applyTransform 1
      ⟨[("status", .obj [("A", .str "ACTIVE")])], [], fun _ => none, [],
        "N", "U"⟩
      false (.str "A") "lookup" [.str "@status"] false =
      .ok (.str "ACTIVE", false) := by
  have h := ((c6_lookup_amended
    ⟨[("status", .obj [("A", .str "ACTIVE")])], [], fun _ => none, [],
      "N", "U"⟩
    false (.str "A") "@status" [] 0 trivial).2 [("A", .str "ACTIVE")]
      rfl).1 ("A", .str "ACTIVE") rfl
  exact h

mutual
theorem noNulls_removeNulls : ∀ v : Value, isNull v = false →
    noNulls (removeNulls v) = true
  | .obj kvs, _ => by
    simp [removeNulls, noNulls, noNullsFields_removeNulls kvs]
  | .arr xs, _ => by
    simp [removeNulls, noNulls, noNullsList_removeNulls xs]
  | .null, h => by simp [isNull] at h
  | .bool _, _ => rfl
  | .int _, _ => rfl
  | .float _, _ => rfl
  | .str _, _ => rfl

theorem noNullsFields_removeNulls : ∀ kvs : List (String × Value),
    noNullsFields (removeNullsFields kvs) = true
  | [] => rfl
  | (k, v) :: rest => by
    by_cases h : isNull v = true
    · simp [removeNullsFields, h, noNullsFields_removeNulls rest]
    · have h' : isNull v = false := by simpa using h
      simp [removeNullsFields, h', noNullsFields,
        noNulls_removeNulls v h', noNullsFields_removeNulls rest]

theorem noNullsList_removeNulls : ∀ xs : List Value,
    noNullsList (removeNullsList xs) = true
  | [] => rfl
  | v :: rest => by
    by_cases h : isNull v = true
    · simp [removeNullsList, h, noNullsList_removeNulls rest]
    · have h' : isNull v = false := by simpa using h
      simp [removeNullsList, h', noNullsList,
        noNulls_removeNulls v h', noNullsList_removeNulls rest]
end

theorem setFinal_obj {kvs : List (String × Value)} {seg : PSeg} {v m : Value}
    (h : setFinal (.obj kvs) seg v = .ok m) : ∃ kvs2, m = .obj kvs2 := by
  cases seg with
  | fld s =>
    simp [setFinal] at h
    exact ⟨_, h.symm⟩
  | idx i =>
    simp [setFinal] at h
    split at h <;> simp_all

theorem walkSet_obj {kvs : List (String × Value)} {segs : List PSeg}
    {v m : Value} (h : walkSet (.obj kvs) segs v = .ok m) :
    ∃ kvs2, m = .obj kvs2 := by
  match segs with
  | [] =>
    replace h : (Except.error PyErr.indexError : PyM Value) = .ok m := h
    simp at h
  | [last] =>
    replace h : setFinal (Value.obj kvs) last v = .ok m := h
    exact setFinal_obj h
  | seg :: next :: rest =>
    cases seg with
    | fld s =>
      have step : ∀ fresh : Value,
          (let needNew :=
            match objGet kvs s with
            | none => true
            | some .null => true
            | some _ => false
          let kvs1 := if needNew then objSet kvs s fresh else kvs
          match objGet kvs1 s with
          | none => (Except.error PyErr.other : PyM Value)
          | some child =>
            match walkSet child (next :: rest) v with
            | .error e => .error e
            | .ok child2 => .ok (.obj (objSet kvs1 s child2))) = .ok m →
          ∃ kvs2, m = .obj kvs2 := by
        intro fresh hh
        simp only [] at hh
        split at hh
        · simp at hh
        · split at hh
          · simp at hh
          · simp at hh
            exact ⟨_, hh.symm⟩
      cases next with
      | fld t => exact step (Value.obj []) h
      | idx j => exact step (Value.arr []) h
    | idx i =>
      replace h :
          (if (kvs.length : Int) ≤ i then (Except.error PyErr.attributeError : PyM Value)
           else Except.error PyErr.keyError) = .ok m := h
      split at h <;> simp at h

theorem setArrWalk_obj {kvs : List (String × Value)} {before : List PSeg}
    {after : List PSeg} {v m : Value}
    (h : setArrWalk (.obj kvs) before (setArrAt after v) = .ok m) :
    ∃ kvs2, m = .obj kvs2 := by
  match before with
  | [] =>
    replace h : (Except.ok (Value.obj kvs) : PyM Value) = .ok m := h
    simp at h
    exact ⟨kvs, h.symm⟩
  | seg :: rest =>
    cases seg with
    | fld s =>
      replace h :
          (let kvs1 :=
            match objGet kvs s with
            | none => objSet kvs s (Value.arr [])
            | some _ => kvs
          match objGet kvs1 s with
          | none => (Except.error PyErr.other : PyM Value)
          | some child =>
            match setArrWalk child rest (setArrAt after v) with
            | .error e => .error e
            | .ok child2 => .ok (.obj (objSet kvs1 s child2))) = .ok m := h
      simp only [] at h
      split at h
      · simp at h
      · split at h
        · simp at h
        · simp at h
          exact ⟨_, h.symm⟩
    | idx i =>
      replace h : (Except.error PyErr.other : PyM Value) = .ok m := h
      simp at h

theorem setValueStr_obj {p : String} {v : Value} {kvs : List (String × Value)}
    {m : Value} (h : setValueStr p v (.obj kvs) = .ok m) :
    ∃ kvs2, m = .obj kvs2 := by
  unfold setValueStr at h
  cases hp : parsePath p with
  | error e => rw [hp] at h; simp [Bind.bind, Except.bind] at h
  | ok segs =>
    rw [hp] at h
    simp [Bind.bind, Except.bind] at h
    by_cases hs : PSeg.fld "*" ∈ segs
    · rw [if_pos hs] at h
      rw [setArrayValue] at h
      exact setArrWalk_obj h
    · rw [if_neg hs] at h
      exact walkSet_obj h

mutual
theorem applyMappingItem_obj : ∀ (fuel : Nat) (ctx : EvCtx) (item : MapItem)
    (data : Value) (kvs : List (String × Value)) (w : Bool) (ts2 : TState),
    applyMappingItem fuel ctx item data ⟨.obj kvs, w⟩ = .ok ts2 →
    ∃ kvs2, ts2.tgt = .obj kvs2
  | fuel, ctx, .mapping src tgt trs ln, data, kvs, w, ts2 => by
    intro h
    rw [applyMappingItem] at h
    rw [applyMapping.eq_def] at h
    split at h
    · injection h with h
      exact ⟨kvs, by rw [← h]⟩
    · split at h
      · simp at h
      · split at h
        · injection h with h
          exact ⟨kvs, by rw [← h]⟩
        · split at h
          · injection h with h
            exact ⟨kvs, by rw [← h]⟩
          · split at h
            · simp at h
            · split at h
              · simp at h
              · rename_i tgt2 hset
                injection h with h
                rcases setValueStr_obj hset with ⟨kvs2, hk⟩
                exact ⟨kvs2, by rw [← h]; exact hk⟩
  | fuel, ctx, .condBlock none body, data, kvs, w, ts2 => by
    intro h
    rw [applyMappingItem] at h
    exact applyItems_obj fuel ctx body data kvs w ts2 h
  | fuel, ctx, .condBlock (some c) body, data, kvs, w, ts2 => by
    intro h
    rw [applyMappingItem] at h
    cases hc : evalCondition c data with
    | error e => rw [hc] at h; simp at h
    | ok b =>
      rw [hc] at h
      simp at h
      cases b with
      | true =>
        simp at h
        exact applyItems_obj fuel ctx body data kvs w ts2 h
      | false =>
        simp at h
        exact ⟨kvs, by rw [← h]⟩
  | fuel, ctx, .nested body, data, kvs, w, ts2 => by
    intro h
    rw [applyMappingItem] at h
    exact applyItems_obj fuel ctx body data kvs w ts2 h

theorem applyItems_obj : ∀ (fuel : Nat) (ctx : EvCtx) (items : List MapItem)
    (data : Value) (kvs : List (String × Value)) (w : Bool) (ts2 : TState),
    applyItems fuel ctx items data ⟨.obj kvs, w⟩ = .ok ts2 →
    ∃ kvs2, ts2.tgt = .obj kvs2
  | fuel, ctx, [], data, kvs, w, ts2 => by
    intro h
    rw [applyItems] at h
    simp at h
    exact ⟨kvs, by rw [← h]⟩
  | fuel, ctx, item :: rest, data, kvs, w, ts2 => by
    intro h
    rw [applyItems] at h
    cases hi : applyMappingItem fuel ctx item data ⟨.obj kvs, w⟩ with
    | error e => rw [hi] at h; simp at h
    | ok ts1 =>
      rw [hi] at h
      simp at h
      rcases applyMappingItem_obj fuel ctx item data kvs w ts1 hi with ⟨kvs1, hk⟩
      have hts1 : ts1 = ⟨.obj kvs1, ts1.whenM⟩ := by
        cases ts1; simp_all
      rw [hts1] at h
      exact applyItems_obj fuel ctx rest data kvs1 ts1.whenM ts2 h
end

/-- Claim C5: with `null_handling` set to `omit`, the transformer's
output contains no null anywhere — recursively, no map key is bound to
null and no sequence contains a null element. -/
theorem c5_null_omission (fuel : Nat) (mf : MappingFile)
    (ext : String → Option ExtFn) (nowS uuidS : String) (record out : Value)
    (hcfg : objGet mf.config "null_handling" = some (.str "omit"))
    (hrun : evTransform fuel mf ext nowS uuidS record = .ok out) :
    noNulls out = true := by
  simp only [evTransform] at hrun
  cases happ : applyItems fuel
      { lookups := loadLookups mf.lookups, aliases := mf.aliases, ext := ext,
        cfg := mf.config, nowS := nowS, uuidS := uuidS }
      mf.mappings record { tgt := .obj [], whenM := false } with
  | error e => rw [happ] at hrun; simp at hrun
  | ok ts =>
    rw [happ] at hrun
    have homit : cfgOmit mf.config = true := by
      simp [cfgOmit, hcfg, pyEq, numQ]
    simp [homit] at hrun
    rcases applyItems_obj fuel _ mf.mappings record [] false ts happ with ⟨kvs, hk⟩
    rw [← hrun, hk]
    simpa [removeNulls, noNulls] using noNullsFields_removeNulls kvs

theorem c5_null_omission_witness :
    noNulls (.obj []) = true :=
  c5_null_omission 2
    ⟨[("null_handling", .str "omit")], [], [], [],
      [.mapping (.path ⟨["a"], false⟩) (.path ⟨["b"]⟩) [] 0]⟩
    (fun _ => none) "T" "U" (.obj []) (.obj []) rfl rfl

/-- Claim C4 (corrected): a mapping with an optional source path is
skipped — no target key, no error, under every `null_handling`
configuration — whenever the *rendered* path (which keeps its trailing
question mark) resolves to null on the record.  The spec's phrasing
over the unadorned path is corrected by the counterexample below. -/
theorem c4_optional_skip (cfg : List (String × Value)) (sp : SourcePath)
    (tp : TargetPath) (trs : List TransformAST) (record : Value)
    (ext : String → Option ExtFn) (nowS uuidS : String) (fuel : Nat)
    (hopt : sp.is_optional = true)
    (hval : getValueStr sp.render record = .ok .null) :
    evTransform fuel ⟨cfg, [], [], [], [.mapping (.path sp) (.path tp) trs 0]⟩
      ext nowS uuidS record = .ok (.obj []) := by
  simp only [evTransform, applyItems, applyMappingItem]
  rw [applyMapping.eq_def]
  rw [show ∀ c : EvCtx, getSourceValue fuel c (SrcExpr.path sp) record =
        Except.ok Value.null from fun c => hval]
  simp [isNull, hopt, applyItems]
  cases hc : cfgOmit cfg <;> simp [hc, removeNulls, removeNullsFields]

theorem c4_optional_skip_witness :
    evTransform 1
      ⟨[("null_handling", .str "omit")], [], [], [],
        [.mapping (.path ⟨["a", "b"], true⟩) (.path ⟨["c"]⟩) [] 0]⟩
      (fun _ => none) "T" "U" (.obj []) = .ok (.obj []) :=
  c4_optional_skip [("null_handling", .str "omit")] ⟨["a", "b"], true⟩ ⟨["c"]⟩
    [] (.obj []) (fun _ => none) "T" "U" 1 rfl rfl

set_option maxHeartbeats 2000000 in
/-- Claim C4 counterexample: `get_value` receives the rendered path
with its trailing question mark and does not strip it, so a record
holding a *literal* key with a question mark makes an optional mapping
fire even though the claimed path is missing: under `a.b? : c` and the
record where `a` maps to a dict with the literal key `b?`, the path
`a.b` resolves to null, yet the output carries `c`. -/
theorem c4_optional_skip_counterexample :
    ∃ mf, parseSmap "a.b? : c" = .ok mf ∧
      getValueStr "a.b" (.obj [("a", .obj [("b?", .int 7)])]) = .ok .null ∧
      evTransform 2 mf (fun _ => none) "T" "U"
        (.obj [("a", .obj [("b?", .int 7)])]) = .ok (.obj [("c", .int 7)]) :=
  ⟨_, rfl, rfl, rfl⟩

theorem c3_mapM (xs : List Value) :
    xs.mapM (fun it => match it with
      | Value.obj _ => getVF 10 "x" it
      | _ => Except.ok it) = .ok (xs.map c3read) := by
  induction xs with
  | nil => rfl
  | cons x rest ih => cases x <;> rw [List.mapM_cons, ih] <;> rfl

theorem c3_writeEach (vs : List Value) :
    writeEach [PSeg.fld "y"] (List.replicate vs.length (Value.obj [])) vs =
      .ok (vs.map (fun v => Value.obj [("y", v)])) := by
  induction vs with
  | nil => rfl
  | cons v rest ih =>
    simp only [List.length_cons, List.replicate_succ]
    have hs : writeEach [PSeg.fld "y"]
        (Value.obj [] :: List.replicate rest.length (Value.obj []))
        (v :: rest) =
        (match writeEach [PSeg.fld "y"]
            (List.replicate rest.length (Value.obj [])) rest with
         | .error e => (.error e : PyM (List Value))
         | .ok r => .ok (Value.obj [("y", v)] :: r)) := rfl
    rw [hs, ih]
    rfl

set_option maxHeartbeats 2000000 in
/-- Claim C3 (corrected): the wildcard mapping over `items` of `n`
elements produces an `out` array of exactly `n` one-field objects, but
the value carried at `y` for element `i` is the evaluator's raw
fan-out: a dict element is read at `x`, while a non-dict element passes
through unchanged rather than contributing the null that reading `x` of
it would produce. -/
theorem c3_wildcard_fanout (xs : List Value) (fuel : Nat) (nowS uuidS : String) :
    parseSmap "items[*].x : out[*].y" =
      .ok ⟨[], [], [], [],
        [.mapping (.path ⟨["items[*]", "x"], false⟩)
          (.path ⟨["out[*]", "y"]⟩) [] 0]⟩ ∧
    evTransform fuel
      ⟨[], [], [], [],
        [.mapping (.path ⟨["items[*]", "x"], false⟩)
          (.path ⟨["out[*]", "y"]⟩) [] 0]⟩
      (fun _ => none) nowS uuidS (.obj [("items", .arr xs)]) =
      .ok (.obj [("out", .arr (xs.map (fun it => Value.obj [("y", c3read it)])))]) := by
  have h1 : getValueStr (SourcePath.render ⟨["items[*]", "x"], false⟩)
      (Value.obj [("items", Value.arr xs)]) =
      .ok (.arr (xs.map c3read)) := by
    have hs : getValueStr (SourcePath.render ⟨["items[*]", "x"], false⟩)
        (Value.obj [("items", Value.arr xs)]) =
        (match xs.mapM (fun it => match it with
            | Value.obj _ => getVF 10 "x" it
            | _ => Except.ok it) with
         | .error e => (.error e : PyM Value)
         | .ok res => .ok (.arr res)) := rfl
    rw [hs, c3_mapM]
  have h2 : setValueStr (TargetPath.render ⟨["out[*]", "y"]⟩)
      (.arr (xs.map c3read)) (.obj []) =
      .ok (.obj [("out",
        .arr ((xs.map c3read).map (fun v => Value.obj [("y", v)])))]) := by
    have hs : setValueStr (TargetPath.render ⟨["out[*]", "y"]⟩)
        (.arr (xs.map c3read)) (.obj []) =
        (match (match writeEach [PSeg.fld "y"]
                  (List.replicate (xs.map c3read).length (Value.obj []))
                  (xs.map c3read) with
                | .error e => (.error e : PyM Value)
                | .ok ys => .ok (.arr ys)) with
         | .error e => (.error e : PyM Value)
         | .ok child2 => .ok (.obj [("out", child2)])) := rfl
    rw [hs, c3_writeEach]
  refine ⟨rfl, ?_⟩
  simp only [evTransform, applyItems, applyMappingItem]
  rw [applyMapping.eq_def]
  rw [show ∀ c : EvCtx, getSourceValue fuel c
        (SrcExpr.path ⟨["items[*]", "x"], false⟩)
        (.obj [("items", Value.arr xs)]) = .ok (.arr (xs.map c3read))
      from fun c => h1]
  simp [isNull, applyTransforms, h2, applyItems, cfgOmit, objGet,
    List.map_map, Function.comp]

set_option maxHeartbeats 2000000 in
/-- Claim C3 counterexample: with a non-dict source element the engine
copies the element itself instead of the value that reading `x` of it
yields: on `items = [5]` the output is `out = [ { y : 5 } ]` although
reading `x` of the integer 5 gives null. -/
theorem c3_wildcard_fanout_counterexample :
    ∃ mf, parseSmap "items[*].x : out[*].y" = .ok mf ∧
      getValueStr "x" (.int 5) = .ok .null ∧
      evTransform 2 mf (fun _ => none) "T" "U"
        (.obj [("items", .arr [.int 5])]) =
        .ok (.obj [("out", .arr [.obj [("y", .int 5)]])]) :=
  ⟨_, rfl, rfl, rfl⟩

set_option maxHeartbeats 4000000 in
/-- Claim C8 (corrected): only the four operators recognised by
`_parse_conditional` — equality, inequality, greater and less — yield a
parsed at-when block; for those the block carries the operator and its
body executes exactly when the integer comparison of the record field
against the literal holds.  The two remaining operators of the claim are
refuted by the counterexample below. -/
theorem c8_when_ops (op : String) (i : Int) (fuel : Nat)
    (hop : op ∈ ["==", "!=", ">", "<"]) :
    parseSmap ("@when status " ++ op ++ " 5 \x7b flag : out \x7d") =
      .ok (c8mf op) ∧
    evTransform fuel (c8mf op) (fun _ => none) "T" "U"
      (.obj [("status", .int i), ("flag", .int 1)]) =
      .ok (if c8holds op i then .obj [("out", .int 1)] else .obj []) := by
  have run : ∀ b : Bool,
      evalCondition ⟨"status", op, .int 5⟩
        (.obj [("status", .int i), ("flag", .int 1)]) = .ok b →
      evTransform fuel (c8mf op) (fun _ => none) "T" "U"
        (.obj [("status", .int i), ("flag", .int 1)]) =
      .ok (if b then .obj [("out", .int 1)] else .obj []) := by
    intro b hb
    simp only [c8mf, evTransform, applyItems, applyMappingItem]
    rw [hb]
    cases b
    · rfl
    · rfl
  have hcases : op = "==" ∨ op = "!=" ∨ op = ">" ∨ op = "<" := by
    simpa using hop
  obtain h | h | h | h := hcases
  · subst h
    refine ⟨rfl, run (c8holds "==" i) ?_⟩
    have hsh : evalCondition ⟨"status", "==", .int 5⟩
        (.obj [("status", .int i), ("flag", .int 1)]) =
        .ok (((i : Int) : ℚ) == (((5 : Int) : ℚ))) := rfl
    rw [hsh]
    by_cases h5 : i = 5
    · subst h5
      simp [c8holds]
    · simp [c8holds, h5, beq_eq_false_iff_ne]
      exact_mod_cast h5
  · subst h
    refine ⟨rfl, run (c8holds "!=" i) ?_⟩
    have hsh : evalCondition ⟨"status", "!=", .int 5⟩
        (.obj [("status", .int i), ("flag", .int 1)]) =
        .ok (!(((i : Int) : ℚ) == (((5 : Int) : ℚ)))) := rfl
    rw [hsh]
    by_cases h5 : i = 5
    · subst h5
      simp [c8holds]
    · simp [c8holds, h5, beq_eq_false_iff_ne]
      exact_mod_cast h5
  · subst h
    refine ⟨rfl, run (c8holds ">" i) ?_⟩
    have hsh : evalCondition ⟨"status", ">", .int 5⟩
        (.obj [("status", .int i), ("flag", .int 1)]) =
        .ok (decide ((((5 : Int) : ℚ)) < ((i : Int) : ℚ))) := rfl
    rw [hsh]
    have hq : (decide ((((5 : Int) : ℚ)) < ((i : Int) : ℚ))) =
        decide (5 < i) := by
      rw [decide_eq_decide]
      exact_mod_cast Iff.rfl
    rw [hq]
    simp [c8holds]
  · subst h
    refine ⟨rfl, run (c8holds "<" i) ?_⟩
    have hsh : evalCondition ⟨"status", "<", .int 5⟩
        (.obj [("status", .int i), ("flag", .int 1)]) =
        .ok (decide (((i : Int) : ℚ) < (((5 : Int) : ℚ)))) := rfl
    rw [hsh]
    have hq : (decide (((i : Int) : ℚ) < (((5 : Int) : ℚ)))) =
        decide (i < 5) := by
      rw [decide_eq_decide]
      exact_mod_cast Iff.rfl
    rw [hq]
    simp [c8holds]

theorem c8_when_ops_witness :
    ">" ∈ ["==", "!=", ">", "<"] ∧
    evTransform 1 (c8mf ">") (fun _ => none) "T" "U"
      (.obj [("status", .int 7), ("flag", .int 1)]) =
      .ok (.obj [("out", .int 1)]) :=
  ⟨by decide, ((c8_when_ops ">" 7 1 (by decide)).2).trans (by rfl)⟩

set_option maxHeartbeats 1000000 in
/-- Claim C8 counterexample: a greater-or-equal at-when block does not
parse — the lexer recognises the operator, but `_parse_conditional`
falls through to its equality default and then trips over the operator
token — while the evaluator itself would support the comparison. -/
theorem c8_when_ops_counterexample :
    parseSmap "@when status >= 5 \x7b flag : out \x7d" = .error .parserError ∧
    parseSmap "@when status <= 5 \x7b flag : out \x7d" = .error .parserError ∧
    evalCondition ⟨"status", ">=", .int 5⟩ (.obj [("status", .int 7)]) =
      .ok true ∧
    evalCondition ⟨"status", "<=", .int 5⟩ (.obj [("status", .int 7)]) =
      .ok false :=
  ⟨rfl, rfl, rfl, rfl⟩

theorem get?_set_self : ∀ (l : List Value) (n : Nat) (a : Value),
    n < l.length → (l.set n a).get? n = some a
  | _ :: _, 0, _, _ => rfl
  | _ :: xs, n + 1, a, h => get?_set_self xs n a (by simpa using h)
  | [], _, _, h => by simp at h

theorem get?_replicate_self (a : Value) : ∀ (n k : Nat),
    k < n → (List.replicate n a).get? k = some a
  | n + 1, 0, _ => rfl
  | n + 1, k + 1, h => get?_replicate_self a n k (by omega)
  | 0, _, h => by omega

theorem walkGet_fld (kvs : List (String × Value)) (s : String)
    (rest : List PSeg) (hs : ¬ s = "*") (he : embIdx s = none) :
    walkGet (Value.obj kvs) (PSeg.fld s :: rest) =
      walkGet ((objGet kvs s).getD Value.null) rest := by
  have hsh : walkGet (Value.obj kvs) (PSeg.fld s :: rest) =
      (if s = "*" then Value.null
       else
         match embIdx s with
         | some bi =>
           (match objGet kvs bi.1 with
            | some (.arr xs) =>
              (match pyIdx xs (bi.2 : Int) with
               | some x => walkGet x rest
               | none => Value.null)
            | _ => Value.null)
         | none => walkGet ((objGet kvs s).getD Value.null) rest) := rfl
  rw [hsh, if_neg hs, he]

theorem walkGet_idx (xs : List Value) (i : Int) (rest : List PSeg) :
    walkGet (Value.arr xs) (PSeg.idx i :: rest) =
      (match pyIdx xs i with
       | some x => walkGet x rest
       | none => Value.null) := rfl

theorem rt_walk : ∀ (segs : List PSeg) (v : Value),
    segs.all segOk = true → noConsecIdx segs = true → segs ≠ [] →
    ∃ m, walkSet (startVal segs) segs v = .ok m ∧ walkGet m segs = v
  | [], _, _, _, hne => absurd rfl hne
  | [PSeg.fld s], v, hall, _, _ => by
    simp [segOk, Option.isNone_iff_eq_none] at hall
    obtain ⟨hs, he⟩ := hall
    refine ⟨.obj [(s, v)], rfl, ?_⟩
    rw [walkGet_fld _ _ _ hs he]
    simp [objGet, show ∀ w : Value, walkGet w [] = w from fun _ => rfl]
  | [PSeg.idx i], v, hall, _, _ => by
    simp [segOk] at hall
    have hlt : i < (((i.toNat + 1 : Nat) : Int)) := by omega
    have hp : padTo ([] : List Value) i Value.null =
        List.replicate (i.toNat + 1) Value.null := by
      simp [padTo, show ¬ i < 0 by omega]
    refine ⟨.arr ((List.replicate (i.toNat + 1) Value.null).set i.toNat v),
      ?_, ?_⟩
    · have hset : pySetIdx (List.replicate (i.toNat + 1) Value.null) i v =
          some ((List.replicate (i.toNat + 1) Value.null).set i.toNat v) := by
        simp [pySetIdx, List.length_replicate, hall, hlt]
      have hsh : walkSet (startVal [PSeg.idx i]) [PSeg.idx i] v =
          (match pySetIdx (padTo [] i Value.null) i v with
           | some ys => (Except.ok (Value.arr ys) : PyM Value)
           | none => .error .indexError) := rfl
      rw [hsh, hp, hset]
    · rw [walkGet_idx]
      have hpy : pyIdx
          ((List.replicate (i.toNat + 1) Value.null).set i.toNat v) i =
          some v := by
        simp [pyIdx, List.length_set, List.length_replicate, hall, hlt]
      rw [hpy]
      rfl
  | PSeg.fld s :: next :: rest, v, hall, hnc, _ => by
    rw [List.all_cons, Bool.and_eq_true] at hall
    obtain ⟨h1, h2⟩ := hall
    simp [segOk, Option.isNone_iff_eq_none] at h1
    obtain ⟨hs, he⟩ := h1
    have hnc' : noConsecIdx (next :: rest) = true := hnc
    obtain ⟨m2, hws2, hwg2⟩ := rt_walk (next :: rest) v h2 hnc' (by simp)
    refine ⟨.obj [(s, m2)], ?_, ?_⟩
    · cases next with
      | fld t =>
        have hws2' : walkSet (Value.obj []) (PSeg.fld t :: rest) v =
            .ok m2 := hws2
        have hsh : walkSet (startVal (PSeg.fld s :: PSeg.fld t :: rest))
            (PSeg.fld s :: PSeg.fld t :: rest) v =
            (match objGet [(s, Value.obj [])] s with
             | none => (Except.error PyErr.other : PyM Value)
             | some child =>
               match walkSet child (PSeg.fld t :: rest) v with
               | .error e => .error e
               | .ok child2 =>
                 .ok (.obj (objSet [(s, Value.obj [])] s child2))) := rfl
        have hog : objGet [(s, Value.obj [])] s = some (Value.obj []) := by
          simp [objGet]
        rw [hsh, hog]
        show (match walkSet (Value.obj []) (PSeg.fld t :: rest) v with
          | .error e => (.error e : PyM Value)
          | .ok child2 =>
            .ok (.obj (objSet [(s, Value.obj [])] s child2))) = _
        rw [hws2']
        simp [objSet]
      | idx j =>
        have hws2' : walkSet (Value.arr []) (PSeg.idx j :: rest) v =
            .ok m2 := hws2
        have hsh : walkSet (startVal (PSeg.fld s :: PSeg.idx j :: rest))
            (PSeg.fld s :: PSeg.idx j :: rest) v =
            (match objGet [(s, Value.arr [])] s with
             | none => (Except.error PyErr.other : PyM Value)
             | some child =>
               match walkSet child (PSeg.idx j :: rest) v with
               | .error e => .error e
               | .ok child2 =>
                 .ok (.obj (objSet [(s, Value.arr [])] s child2))) := rfl
        have hog : objGet [(s, Value.arr [])] s = some (Value.arr []) := by
          simp [objGet]
        rw [hsh, hog]
        show (match walkSet (Value.arr []) (PSeg.idx j :: rest) v with
          | .error e => (.error e : PyM Value)
          | .ok child2 =>
            .ok (.obj (objSet [(s, Value.arr [])] s child2))) = _
        rw [hws2']
        simp [objSet]
    · rw [walkGet_fld _ _ _ hs he]
      simp [objGet]
      exact hwg2
  | PSeg.idx i :: next :: rest, v, hall, hnc, _ => by
    rw [List.all_cons, Bool.and_eq_true] at hall
    obtain ⟨h1, h2⟩ := hall
    simp [segOk] at h1
    cases next with
    | idx j => simp [noConsecIdx] at hnc
    | fld t =>
      have hnc' : noConsecIdx (PSeg.fld t :: rest) = true := hnc
      obtain ⟨m2, hws2, hwg2⟩ := rt_walk (PSeg.fld t :: rest) v h2 hnc' (by simp)
      have hws2' : walkSet (Value.obj []) (PSeg.fld t :: rest) v =
          .ok m2 := hws2
      have hlt : i < (((i.toNat + 1 : Nat) : Int)) := by omega
      have hp : padTo ([] : List Value) i (Value.obj []) =
          List.replicate (i.toNat + 1) (Value.obj []) := by
        simp [padTo, show ¬ i < 0 by omega]
      have hpyi : pyIdx (List.replicate (i.toNat + 1) (Value.obj [])) i =
          some (Value.obj []) := by
        simp [pyIdx, List.length_replicate, h1, hlt]
      have hset : pySetIdx (List.replicate (i.toNat + 1) (Value.obj [])) i m2 =
          some ((List.replicate (i.toNat + 1) (Value.obj [])).set
            i.toNat m2) := by
        simp [pySetIdx, List.length_replicate, h1, hlt]
      refine ⟨.arr ((List.replicate (i.toNat + 1) (Value.obj [])).set
        i.toNat m2), ?_, ?_⟩
      · have hsh : walkSet (startVal (PSeg.idx i :: PSeg.fld t :: rest))
            (PSeg.idx i :: PSeg.fld t :: rest) v =
            (match pyIdx (padTo [] i (Value.obj [])) i with
             | none => (Except.error PyErr.indexError : PyM Value)
             | some child0 =>
               match walkSet
                   (match child0 with
                    | Value.null => Value.obj []
                    | c => c)
                   (PSeg.fld t :: rest) v with
               | .error e => .error e
               | .ok child2 =>
                 match pySetIdx (padTo [] i (Value.obj [])) i child2 with
                 | some ys => .ok (.arr ys)
                 | none => .error .indexError) := rfl
        rw [hsh, hp, hpyi]
        show (match walkSet (Value.obj []) (PSeg.fld t :: rest) v with
          | .error e => (.error e : PyM Value)
          | .ok child2 =>
            match pySetIdx (List.replicate (i.toNat + 1) (Value.obj [])) i
                child2 with
            | some ys => .ok (.arr ys)
            | none => .error .indexError) = _
        rw [hws2']
        show (match pySetIdx (List.replicate (i.toNat + 1) (Value.obj [])) i
            m2 with
          | some ys => (Except.ok (Value.arr ys) : PyM Value)
          | none => .error .indexError) = _
        rw [hset]
      · rw [walkGet_idx]
        have hpy2 : pyIdx
            ((List.replicate (i.toNat + 1) (Value.obj [])).set i.toNat m2) i =
            some m2 := by
          simp [pyIdx, List.length_set, List.length_replicate, h1, hlt]
        rw [hpy2]
        exact hwg2

/-- Claim C2 (corrected): the round-trip law holds for wildcard-free
paths whose parsed segments are sound for writing: the path parses, the
write starts in a dict (first segment a field), every index is
non-negative, no two indices are adjacent, no field segment is the
wildcard or an embedded-index pattern, and the raw string has no
wildcard group and no leading dot.  Negative end-relative indices,
admitted by the claim, are refuted by the counterexample below. -/
theorem c2_roundtrip_amended (p : String) (v : Value) (segs : List PSeg)
    (hp : parsePath p = .ok segs)
    (hall : segs.all segOk = true) (hnc : noConsecIdx segs = true)
    (hne : segs ≠ []) (hstart : startVal segs = .obj [])
    (hstar : hasStarBr p.toList = false)
    (hdot : ¬ p.toList.head? = some '.') :
    ∃ m, setValueStr p v (.obj []) = .ok m ∧ getValueStr p m = .ok v := by
  have hnostar : ¬ PSeg.fld "*" ∈ segs := by
    intro hmem
    have hseg := List.all_eq_true.mp hall _ hmem
    simp [segOk] at hseg
  obtain ⟨m, hws, hwg⟩ := rt_walk segs v hall hnc hne
  rw [hstart] at hws
  refine ⟨m, ?_, ?_⟩
  · unfold setValueStr
    rw [hp]
    simp only [Bind.bind, Except.bind]
    rw [if_neg (by simpa using hnostar)]
    exact hws
  · have hpne : ¬ p = "" := by
      intro he
      subst he
      rw [show parsePath "" = Except.ok ([] : List PSeg) from rfl] at hp
      injection hp with hp
      exact hne hp.symm
    unfold getValueStr
    rw [getVF]
    simp only [hpne, hdot, hstar, if_false, ite_false, Bool.false_eq_true]
    rw [show String.mk p.toList = p by cases p; rfl, hp]
    show Except.ok (walkGet m segs) = Except.ok v
    rw [hwg]

theorem c2_roundtrip_amended_witness :
    ∃ m, setValueStr "a[0].b" (.int 7) (.obj []) = .ok m ∧
      getValueStr "a[0].b" m = .ok (.int 7) :=
  c2_roundtrip_amended "a[0].b" (.int 7)
    [PSeg.fld "a", PSeg.idx 0, PSeg.fld "b"]
    rfl (by decide) (by decide) (by decide) rfl rfl (by decide)

/-- Claim C2 counterexample: a negative end-relative index breaks the
round trip — `set_value` on an empty map creates an empty list for the
segment before the index and then assigning at index `-1` of the empty
list raises `IndexError`, so no output exists to read back. -/
theorem c2_roundtrip_counterexample :
    parsePath "a[-1]" = .ok [PSeg.fld "a", PSeg.idx (-1)] ∧
    setValueStr "a[-1]" (.int 1) (.obj []) = .error .indexError :=
  ⟨rfl, rfl⟩

theorem strMk_toList (s : String) : String.mk s.toList = s := by
  cases s
  rfl

theorem parsePathAux_step (fuel : Nat) (c : Char) (rest cur : List Char)
    (acc : List PSeg) (h1 : ¬ c = '.') (h2 : ¬ c = '[') :
    parsePathAux (fuel + 1) (c :: rest) cur acc =
      parsePathAux fuel rest (cur ++ [c]) acc := by
  rw [parsePathAux.eq_def]
  split
  · rename_i heq
    simp at heq
  · rename_i heq
    simp at heq
  · rename_i heqf heqc
    injection heqc with hc _
    exact absurd hc h1
  · rename_i heqf heqc
    injection heqc with hc _
    exact absurd hc h2
  · rename_i heqf heqc
    injection heqc with hc hr
    subst hc
    subst hr
    have hf := Nat.succ.inj heqf
    subst hf
    rfl

theorem parsePathAux_plain : ∀ (cs cur : List Char) (acc : List PSeg),
    cs.all plainChar = true →
    parsePathAux (cs.length + 1) cs cur acc = .ok (acc ++ pushCur (cur ++ cs))
  | [], cur, acc, _ => by
    rw [List.append_nil]
    rfl
  | c :: rest, cur, acc, hall => by
    rw [List.all_cons, Bool.and_eq_true] at hall
    obtain ⟨hc, hrest⟩ := hall
    have hc1 : ¬ c = '.' := by
      intro he
      subst he
      simp [plainChar] at hc
    have hc2 : ¬ c = '[' := by
      intro he
      subst he
      simp [plainChar] at hc
    have hstep := parsePathAux_step (rest.length + 1) c rest cur acc hc1 hc2
    simp only [List.length_cons]
    rw [hstep, parsePathAux_plain rest (cur ++ [c]) acc hrest]
    simp

theorem parsePath_plain (s : String) (hps : plainSeg s = true) :
    parsePath s = .ok [PSeg.fld s] := by
  rw [plainSeg, Bool.and_eq_true] at hps
  obtain ⟨hne, hchars⟩ := hps
  have hne' : ¬ s = "" := by simpa using hne
  have h := parsePathAux_plain s.toList [] [] hchars
  have hlen : s.length = s.toList.length := rfl
  have hdata : ¬ s.toList = [] := by
    intro hl
    apply hne'
    cases s with
    | mk d =>
      have hd : d = [] := hl
      rw [hd]
  rw [parsePath, hlen, h]
  simp [pushCur, List.isEmpty_iff, hdata, strMk_toList]
  exact hdata

theorem hasStarBr_step (c : Char) (rest : List Char) (h : ¬ c = '[') :
    hasStarBr (c :: rest) = hasStarBr rest := by
  rw [hasStarBr.eq_def]
  split
  · rename_i heq
    injection heq with h1 _
    exact absurd h1 h
  · rename_i heq
    injection heq with _ h2
    rw [h2]
  · rename_i heq
    simp at heq

theorem hasStarBr_plain : ∀ cs : List Char, cs.all plainChar = true →
    hasStarBr cs = false
  | [], _ => rfl
  | c :: rest, hall => by
    rw [List.all_cons, Bool.and_eq_true] at hall
    obtain ⟨hc, hrest⟩ := hall
    have hc2 : ¬ c = '[' := by
      intro he
      subst he
      simp [plainChar] at hc
    rw [hasStarBr_step c rest hc2]
    exact hasStarBr_plain rest hrest

theorem chSplit_nosep (sep : Char) : ∀ cs : List Char,
    cs.all (fun c => !(c = sep)) = true → chSplit sep cs = [cs]
  | [], _ => rfl
  | c :: rest, hall => by
    rw [List.all_cons, Bool.and_eq_true] at hall
    obtain ⟨hc, hrest⟩ := hall
    simp at hc
    rw [chSplit, chSplit_nosep sep rest hrest]
    simp [hc]

theorem embIdx_plain (s : String) (h : s.toList.all plainChar = true) :
    embIdx s = none := by
  have hach : ∀ a ∈ s.toList, ¬ a = '[' := by
    intro a ha he
    subst he
    have := List.all_eq_true.mp h _ ha
    simp [plainChar] at this
  have h1 : s.toList.takeWhile (fun c => c ≠ '[') = s.toList := by
    rw [List.takeWhile_eq_self_iff]
    intro a ha
    simpa using hach a ha
  have h2 : s.toList.dropWhile (fun c => c ≠ '[') = [] := by
    rw [List.dropWhile_eq_nil_iff]
    intro a ha
    simpa using hach a ha
  have hspan : s.toList.span (fun c => c ≠ '[') = (s.toList, []) := by
    rw [List.span_eq_take_drop, h1, h2]
  unfold embIdx
  rw [hspan]

theorem sourceRender_single (s : String) :
    SourcePath.render ⟨[s], false⟩ = s := by
  simp [SourcePath.render, dotJoin, dotJoinCh, strMk_toList]

theorem targetRender_single (t : String) :
    TargetPath.render ⟨[t]⟩ = t := by
  simp [TargetPath.render, dotJoin, dotJoinCh, strMk_toList]

theorem plain_no_star (s : String) (hps : plainSeg s = true) : ¬ s = "*" := by
  intro he
  subst he
  simp [plainSeg, plainChar] at hps

theorem plain_chars (s : String) (hps : plainSeg s = true) :
    s.toList.all plainChar = true := by
  rw [plainSeg, Bool.and_eq_true] at hps
  exact hps.2

theorem plain_ne_empty (s : String) (hps : plainSeg s = true) : ¬ s = "" := by
  rw [plainSeg, Bool.and_eq_true] at hps
  simpa using hps.1

theorem plain_contains (s : String) (hps : plainSeg s = true) :
    s.toList.contains '[' = false := by
  by_cases hmem : '[' ∈ s.toList
  · exfalso
    have hpc := List.all_eq_true.mp (plain_chars s hps) _ hmem
    simp [plainChar] at hpc
  · simpa using hmem

theorem plain_filter (s : String) (hps : plainSeg s = true) :
    s.toList.filter (fun c => c ≠ '?') = s.toList := by
  rw [List.filter_eq_self]
  intro a ha
  have hpc := List.all_eq_true.mp (plain_chars s hps) _ ha
  simp
  intro he
  subst he
  simp [plainChar] at hpc

theorem plain_nodot (s : String) (hps : plainSeg s = true) :
    s.toList.all (fun c => !(c = '.')) = true := by
  rw [List.all_eq_true]
  intro a ha
  have hpc := List.all_eq_true.mp (plain_chars s hps) _ ha
  simp
  intro he
  subst he
  simp [plainChar] at hpc

theorem walkGet_fld_scalar (r : Value) (s : String) (rest : List PSeg)
    (hs : ¬ s = "*")
    (hrn : ¬ r = Value.null) (hro : ∀ kvs, ¬ r = Value.obj kvs) :
    walkGet r (PSeg.fld s :: rest) = Value.null := by
  cases r with
  | null => exact absurd rfl hrn
  | obj kvs => exact absurd rfl (hro kvs)
  | bool b =>
    have hsh : walkGet (Value.bool b) (PSeg.fld s :: rest) =
        (if s = "*" then Value.null
         else match embIdx s with
              | some _ => Value.null
              | none => Value.null) := rfl
    rw [hsh, if_neg hs]
    split <;> rfl
  | int n =>
    have hsh : walkGet (Value.int n) (PSeg.fld s :: rest) =
        (if s = "*" then Value.null
         else match embIdx s with
              | some _ => Value.null
              | none => Value.null) := rfl
    rw [hsh, if_neg hs]
    split <;> rfl
  | float q =>
    have hsh : walkGet (Value.float q) (PSeg.fld s :: rest) =
        (if s = "*" then Value.null
         else match embIdx s with
              | some _ => Value.null
              | none => Value.null) := rfl
    rw [hsh, if_neg hs]
    split <;> rfl
  | str t =>
    have hsh : walkGet (Value.str t) (PSeg.fld s :: rest) =
        (if s = "*" then Value.null
         else match embIdx s with
              | some _ => Value.null
              | none => Value.null) := rfl
    rw [hsh, if_neg hs]
    split <;> rfl
  | arr xs =>
    have hsh : walkGet (Value.arr xs) (PSeg.fld s :: rest) =
        (if s = "*" then Value.arr xs
         else match embIdx s with
              | some _ => Value.null
              | none => Value.null) := rfl
    rw [hsh, if_neg hs]
    split <;> rfl

theorem ev_get_plain (s : String) (hps : plainSeg s = true) (r : Value) :
    getValueStr s r = .ok (walkGet r [PSeg.fld s]) := by
  have hchars := plain_chars s hps
  have hne' := plain_ne_empty s hps
  have hdot : ¬ s.toList.head? = some '.' := by
    cases hl : s.toList with
    | nil => simp
    | cons a as =>
      simp
      intro he
      subst he
      have ha : ('.' : Char) ∈ s.toList := by
        rw [hl]
        exact List.mem_cons_self _ _
      have hpc := List.all_eq_true.mp hchars _ ha
      simp [plainChar] at hpc
  have hstar := hasStarBr_plain s.toList hchars
  unfold getValueStr
  rw [getVF]
  simp only [hne', hdot, hstar, if_false, ite_false, Bool.false_eq_true]
  rw [strMk_toList, parsePath_plain s hps]

theorem cg_get_plain (s : String) (hps : plainSeg s = true) (r : Value) :
    cgGetValue r s = .ok (walkGet r [PSeg.fld s]) := by
  have hne' := plain_ne_empty s hps
  have hsnostar := plain_no_star s hps
  have hembs := embIdx_plain s (plain_chars s hps)
  have hcont := plain_contains s hps
  unfold cgGetValue
  rw [if_neg hne']
  cases r with
  | null => rfl
  | obj kvs =>
    rw [plain_filter s hps, chSplit_nosep '.' s.toList (plain_nodot s hps)]
    rw [cgGetSegs]
    simp only [hcont, Bool.false_eq_true, if_false, ite_false]
    rw [strMk_toList]
    have hfin : ∀ w : Value, cgGetSegs w [] = .ok w := fun _ => rfl
    rw [hfin]
    rw [walkGet_fld kvs s [] hsnostar hembs]
    rfl
  | bool b =>
    rw [plain_filter s hps, chSplit_nosep '.' s.toList (plain_nodot s hps)]
    rw [cgGetSegs]
    simp only [hcont, Bool.false_eq_true, if_false, ite_false]
    rw [walkGet_fld_scalar _ s [] hsnostar (by simp) (by simp)]
    rfl
    all_goals simp
  | int n =>
    rw [plain_filter s hps, chSplit_nosep '.' s.toList (plain_nodot s hps)]
    rw [cgGetSegs]
    simp only [hcont, Bool.false_eq_true, if_false, ite_false]
    rw [walkGet_fld_scalar _ s [] hsnostar (by simp) (by simp)]
    rfl
    all_goals simp
  | float q =>
    rw [plain_filter s hps, chSplit_nosep '.' s.toList (plain_nodot s hps)]
    rw [cgGetSegs]
    simp only [hcont, Bool.false_eq_true, if_false, ite_false]
    rw [walkGet_fld_scalar _ s [] hsnostar (by simp) (by simp)]
    rfl
    all_goals simp
  | str t =>
    rw [plain_filter s hps, chSplit_nosep '.' s.toList (plain_nodot s hps)]
    rw [cgGetSegs]
    simp only [hcont, Bool.false_eq_true, if_false, ite_false]
    rw [walkGet_fld_scalar _ s [] hsnostar (by simp) (by simp)]
    rfl
    all_goals simp
  | arr xs =>
    rw [plain_filter s hps, chSplit_nosep '.' s.toList (plain_nodot s hps)]
    rw [cgGetSegs]
    simp only [hcont, Bool.false_eq_true, if_false, ite_false]
    rw [walkGet_fld_scalar _ s [] hsnostar (by simp) (by simp)]
    rfl
    all_goals simp

theorem ev_set_plain (t : String) (hpt : plainSeg t = true) (v : Value)
    (kvs : List (String × Value)) :
    setValueStr t v (Value.obj kvs) = .ok (.obj (objSet kvs t v)) := by
  have hcontain : ([PSeg.fld t]).contains (PSeg.fld "*") = false := by
    simp
    intro he
    exact plain_no_star t hpt he.symm
  have hsh : setValueStr t v (Value.obj kvs) =
      (if ([PSeg.fld t]).contains (PSeg.fld "*") then
        setArrayValue [PSeg.fld t] v (Value.obj kvs)
       else walkSet (Value.obj kvs) [PSeg.fld t] v) := by
    unfold setValueStr
    rw [parsePath_plain t hpt]
    rfl
  rw [hsh, hcontain]
  rfl

theorem cg_set_plain (t : String) (hpt : plainSeg t = true) (v : Value)
    (kvs : List (String × Value)) :
    cgSetValue (Value.obj kvs) t v = .ok (.obj (objSet kvs t v)) := by
  unfold cgSetValue
  rw [chSplit_nosep '.' t.toList (plain_nodot t hpt)]
  rw [cgSetSegs]
  simp only [plain_contains t hpt, Bool.false_eq_true, if_false, ite_false]
  rw [strMk_toList]

theorem c1_items (ext : String → Option ExtFn)
    (aliases : List (String × AliasDef)) (lookups : List (String × Value))
    (nowS uuidS : String) (r : Value) :
    ∀ (items : List MapItem), items.all plainMapItem = true →
    ∀ (fuel : Nat) (ctx : EvCtx), cfgMissingSkip ctx.cfg = false →
    ∀ (kvs : List (String × Value)) (w : Bool),
      ∃ kvs2 : List (String × Value),
        applyItems fuel ctx items r ⟨Value.obj kvs, w⟩ = .ok ⟨Value.obj kvs2, w⟩ ∧
        cgItems (fuel + 1) ext aliases lookups nowS uuidS r items (Value.obj kvs)
          = .ok (Value.obj kvs2) := by
  intro items
  induction items with
  | nil =>
    intro _ fuel ctx hms kvs w
    exact ⟨kvs, rfl, rfl⟩
  | cons item rest ih =>
    intro hall fuel ctx hms kvs w
    rw [List.all_cons, Bool.and_eq_true] at hall
    obtain ⟨hitem, hrest⟩ := hall
    cases item with
    | condBlock c body => simp [plainMapItem] at hitem
    | nested body => simp [plainMapItem] at hitem
    | mapping src tgt trs pr =>
      cases src with
      | const v => simp [plainMapItem] at hitem
      | compute e ty => simp [plainMapItem] at hitem
      | merge parts op => simp [plainMapItem] at hitem
      | path sp =>
        obtain ⟨psegs, popt⟩ := sp
        cases psegs with
        | nil => simp [plainMapItem] at hitem
        | cons s srest =>
          cases srest with
          | cons s2 srest2 => simp [plainMapItem] at hitem
          | nil =>
            cases popt with
            | true => simp [plainMapItem] at hitem
            | false =>
              cases tgt with
              | skipT => simp [plainMapItem] at hitem
              | path tp =>
                obtain ⟨tsegs⟩ := tp
                cases tsegs with
                | nil => simp [plainMapItem] at hitem
                | cons t trest =>
                  cases trest with
                  | cons t2 trest2 => simp [plainMapItem] at hitem
                  | nil =>
                    cases trs with
                    | cons tr trs2 => simp [plainMapItem] at hitem
                    | nil =>
                      simp only [plainMapItem, Bool.and_eq_true] at hitem
                      obtain ⟨hs, ht⟩ := hitem
                      have hvalc : getValueStr (SourcePath.render ⟨[s], false⟩) r
                          = .ok (walkGet r [PSeg.fld s]) := by
                        rw [sourceRender_single]
                        exact ev_get_plain s hs r
                      have hset : setValueStr (TargetPath.render ⟨[t]⟩)
                          (walkGet r [PSeg.fld s]) (Value.obj kvs)
                          = .ok (.obj (objSet kvs t (walkGet r [PSeg.fld s]))) := by
                        rw [targetRender_single]
                        exact ev_set_plain t ht _ kvs
                      have hev1 : applyMappingItem fuel ctx
                          (MapItem.mapping (SrcExpr.path ⟨[s], false⟩)
                            (TgtExpr.path ⟨[t]⟩) [] pr) r ⟨Value.obj kvs, w⟩
                          = .ok ⟨Value.obj (objSet kvs t (walkGet r [PSeg.fld s])), w⟩ := by
                        simp only [applyMappingItem]
                        rw [applyMapping.eq_def]
                        rw [show ∀ c : EvCtx, getSourceValue fuel c
                              (SrcExpr.path ⟨[s], false⟩) r
                              = .ok (walkGet r [PSeg.fld s]) from fun c => hvalc]
                        simp [hms, applyTransforms, hset]
                      have hcgv : cgSourceValue ext nowS uuidS
                          (SrcExpr.path ⟨[s], false⟩) r
                          = .ok (walkGet r [PSeg.fld s]) := by
                        show (if hasStarBr (SourcePath.render ⟨[s], false⟩).toList = true
                              then cgGetArrayValues r (SourcePath.render ⟨[s], false⟩)
                              else cgGetValue r (SourcePath.render ⟨[s], false⟩)) = _
                        rw [sourceRender_single]
                        rw [hasStarBr_plain s.toList (plain_chars s hs)]
                        simp only [Bool.false_eq_true, if_false, ite_false]
                        exact cg_get_plain s hs r
                      have hcgset : cgSetValue (Value.obj kvs)
                          (TargetPath.render ⟨[t]⟩) (walkGet r [PSeg.fld s])
                          = .ok (.obj (objSet kvs t (walkGet r [PSeg.fld s]))) := by
                        rw [targetRender_single]
                        exact cg_set_plain t ht _ kvs
                      have hcg1 : cgMapping (fuel + 1) ext aliases lookups nowS uuidS
                          (SrcExpr.path ⟨[s], false⟩) (TgtExpr.path ⟨[t]⟩) [] r
                          (Value.obj kvs)
                          = .ok (.obj (objSet kvs t (walkGet r [PSeg.fld s]))) := by
                        show (match cgSourceValue ext nowS uuidS
                                (SrcExpr.path ⟨[s], false⟩) r with
                              | .error e => Except.error e
                              | .ok v0 =>
                                match cgTransformChain (fuel + 1) aliases lookups [] v0 with
                                | .error e => Except.error e
                                | .ok v1 =>
                                  cgSetValue (Value.obj kvs) (TargetPath.render ⟨[t]⟩) v1)
                            = _
                        rw [hcgv]
                        show (match cgTransformChain (fuel + 1) aliases lookups []
                                (walkGet r [PSeg.fld s]) with
                              | .error e => Except.error e
                              | .ok v1 =>
                                cgSetValue (Value.obj kvs) (TargetPath.render ⟨[t]⟩) v1)
                            = _
                        rw [show cgTransformChain (fuel + 1) aliases lookups []
                              (walkGet r [PSeg.fld s])
                              = .ok (walkGet r [PSeg.fld s]) from rfl]
                        exact hcgset
                      obtain ⟨kvs2, hev2, hcg2⟩ :=
                        ih hrest fuel ctx hms (objSet kvs t (walkGet r [PSeg.fld s])) w
                      refine ⟨kvs2, ?_, ?_⟩
                      · simp only [applyItems]
                        rw [hev1]
                        exact hev2
                      · simp only [cgItems]
                        rw [hcg1]
                        exact hcg2

/-- Claim C1 (corrected): the claimed backend equivalence fails in general —
on the optional mapping file `a.b? : c` the evaluator skips a missing source
while the generated code writes a null (see
`c1_backend_equivalence_counterexample`) — but it holds on the transform-free
plain fragment: for every mapping file whose mappings are all non-optional
single-segment path-to-path mappings over plain segments and whose config
sets neither `missing_fields: skip` nor `null_handling`, the transformer
generated by the code generator returns exactly the evaluator's output on
every record. -/
theorem c1_backend_equivalence (mf : MappingFile) (ext : String → Option ExtFn)
    (nowS uuidS : String) (r : Value) (fuel : Nat)
    (hplain : mf.mappings.all plainMapItem = true)
    (hms : cfgMissingSkip mf.config = false)
    (hnh : objGet mf.config "null_handling" = none) :
    genTransform (fuel + 1) mf ext nowS uuidS r
      = evTransform fuel mf ext nowS uuidS r := by
  obtain ⟨kvs2, hev, hcg⟩ :=
    c1_items ext mf.aliases (cgLookups mf.lookups) nowS uuidS r mf.mappings hplain
      fuel ⟨loadLookups mf.lookups, mf.aliases, ext, mf.config, nowS, uuidS⟩
      hms [] false
  have hco : cfgOmit mf.config = false := by
    unfold cfgOmit
    rw [hnh]
  simp only [evTransform, genTransform]
  rw [hev, hcg, hnh, hco]
  simp
  intro h
  exact absurd h (by decide)

theorem c1_backend_equivalence_witness :
    c1mfW.mappings.all plainMapItem = true ∧
    cfgMissingSkip c1mfW.config = false ∧
    objGet c1mfW.config "null_handling" = none ∧
    genTransform 1 c1mfW (fun _ => none) "T" "U" (.obj [("a", .int 7)])
      = evTransform 0 c1mfW (fun _ => none) "T" "U" (.obj [("a", .int 7)]) :=
  ⟨by decide, rfl, rfl,
    c1_backend_equivalence c1mfW (fun _ => none) "T" "U" (.obj [("a", .int 7)]) 0
      (by decide) rfl rfl⟩

/-- The two backends disagree already on the parsed form of `a.b? : c`
over the empty record: the evaluator's optional-skip yields an empty
output where the generated code writes `c: null`. -/
theorem c1_backend_equivalence_counterexample :
    parseSmap "a.b? : c" = .ok c1mfX ∧
    evTransform 2 c1mfX (fun _ => none) "T" "U" (.obj []) = .ok (.obj []) ∧
    genTransform 2 c1mfX (fun _ => none) "T" "U" (.obj [])
      = .ok (.obj [("c", Value.null)]) ∧
    ¬ ((Value.obj []) = (Value.obj [("c", Value.null)])) :=
  ⟨rfl, rfl, rfl, by simp⟩
